import Mathlib

/-!
Shallow embedding of the netlist data model and connectivity engine of the
schematic editor (src/data.py, src/editor.py, src/graphical.py).

Python objects live on an explicit heap addressed by `Nat` ids; Python dicts
(`dict[str, ...]` and the id-addressed heap components) are association lists
with Python dict semantics: assignment to an existing key keeps its position
and replaces the value, assignment to a new key appends, iteration follows
list order.  Python exceptions are modelled by an `Err` value returned next
to the post-crash state (Python leaves partial mutation visible, so every
operation returns its state even on error).
-/

namespace Netlist

/-- Python `d[k]` as an option (first entry with the key; dicts built by
`aSet` never hold duplicate keys). -/
def aGet {κ α : Type} [DecidableEq κ] : List (κ × α) → κ → Option α
  | [], _ => none
  | (k', v) :: rest, k => if k' = k then some v else aGet rest k

/-- Python `d[k] = v`: replace in place if the key exists, else append. -/
def aSet {κ α : Type} [DecidableEq κ] : List (κ × α) → κ → α → List (κ × α)
  | [], k, v => [(k, v)]
  | (k', v') :: rest, k, v =>
    if k' = k then (k', v) :: rest else (k', v') :: aSet rest k v

/-- Python `del d[k]`: drop the entry with the key. -/
def aDel {κ α : Type} [DecidableEq κ] : List (κ × α) → κ → List (κ × α)
  | [], _ => []
  | (k', v') :: rest, k => if k' = k then rest else (k', v') :: aDel rest k

/-- Python `k in d`. -/
def aMem {κ α : Type} [DecidableEq κ] (d : List (κ × α)) (k : κ) : Bool :=
  (aGet d k).isSome

/-- Python `list(d)` / key iteration order. -/
def aKeys {κ α : Type} (d : List (κ × α)) : List κ := d.map Prod.fst

/-- Python `list.remove(x)`: drop the first occurrence (call sites below
always pass a present element, so the missing-element `ValueError` path is
not reachable from them). -/
def lRemove : List Nat → Nat → List Nat
  | [], _ => []
  | y :: rest, x => if y = x then rest else y :: lRemove rest x

/-- Python dict comprehension `{k: v for (k, v) in pairs}`. -/
def pyDict {α : Type} (pairs : List (String × α)) : List (String × α) :=
  pairs.foldl (fun d p => aSet d p.1 p.2) []

/-- The two explicit `raise` sites of `data.py` (duplicate-name and
primitive-immutability checks) plus Python `KeyError` / `ValueError`
from dict and list lookups. -/
inductive Err where
  | duplicateName
  | immutableType
  | notFound
  | valueError
deriving DecidableEq, Repr

instance {ε α : Type} [DecidableEq ε] [DecidableEq α] : DecidableEq (Except ε α) :=
  fun a b =>
    match a, b with
    | .error e, .error f =>
      if h : e = f then isTrue (by rw [h])
      else isFalse (by intro hh; injection hh; exact h (by assumption))
    | .ok x, .ok y =>
      if h : x = y then isTrue (by rw [h])
      else isFalse (by intro hh; injection hh; exact h (by assumption))
    | .error _, .ok _ => isFalse fun hh => Except.noConfusion hh
    | .ok _, .error _ => isFalse fun hh => Except.noConfusion hh

/-- `data.Pin`: just a mutable name (the owner back-reference carries no
behaviour used by any operation modelled here). -/
structure Pin where
  name : String
deriving DecidableEq, Repr

/-- `data.PinRef`.  In Python the wrapped `__pin` is either a `Pin` (block
interface refs) or the block's `PinRef` (instance refs); name lookup
delegates through the chain to the same underlying `Pin`, so we store that
`Pin`'s heap id directly. -/
structure PinRef where
  pin : Nat
  net : Option Nat
deriving DecidableEq, Repr

/-- `data.Net`: a name and the ordered member list of PinRef ids. -/
structure NetObj where
  name : String
  pins : List Nat
deriving DecidableEq, Repr

/-- `data.Instance`: name, type block id, ordered PinRef id list. -/
structure InstanceObj where
  name : String
  typeId : Nat
  interfacePins : List Nat
deriving DecidableEq, Repr

/-- `data.Block`: the four name-keyed dicts and the primitive flag. -/
structure BlockObj where
  name : String
  instances : List (String × Nat)
  interfacePins : List (String × Nat)
  interfacePinsRefs : List (String × Nat)
  nets : List (String × Nat)
  isPrimitive : Bool
deriving DecidableEq, Repr

/-- The object heap: one id-addressed store per class plus a fresh-id
counter.  All allocations draw from the shared counter. -/
structure Heap where
  pins : List (Nat × Pin)
  pinRefs : List (Nat × PinRef)
  nets : List (Nat × NetObj)
  insts : List (Nat × InstanceObj)
  blocks : List (Nat × BlockObj)
  fresh : Nat
deriving DecidableEq, Repr

def Heap.empty : Heap := ⟨[], [], [], [], [], 0⟩

/-- Dereference a Pin id (ids are produced by our own allocator; the default
is never reached from states built by the operations below). -/
def Heap.pin (s : Heap) (i : Nat) : Pin := (aGet s.pins i).getD ⟨""⟩

def Heap.pinRef (s : Heap) (i : Nat) : PinRef := (aGet s.pinRefs i).getD ⟨0, none⟩

def Heap.net (s : Heap) (i : Nat) : NetObj := (aGet s.nets i).getD ⟨"", []⟩

def Heap.inst (s : Heap) (i : Nat) : InstanceObj := (aGet s.insts i).getD ⟨"", 0, []⟩

def Heap.block (s : Heap) (i : Nat) : BlockObj :=
  (aGet s.blocks i).getD ⟨"", [], [], [], [], false⟩

def Heap.allocPin (s : Heap) (nm : String) : Nat × Heap :=
  (s.fresh, { s with pins := aSet s.pins s.fresh ⟨nm⟩, fresh := s.fresh + 1 })

def Heap.allocPinRef (s : Heap) (pinId : Nat) : Nat × Heap :=
  (s.fresh, { s with pinRefs := aSet s.pinRefs s.fresh ⟨pinId, none⟩,
                     fresh := s.fresh + 1 })

def Heap.allocNet (s : Heap) (nm : String) : Nat × Heap :=
  (s.fresh, { s with nets := aSet s.nets s.fresh ⟨nm, []⟩, fresh := s.fresh + 1 })

def Heap.allocInst (s : Heap) (o : InstanceObj) : Nat × Heap :=
  (s.fresh, { s with insts := aSet s.insts s.fresh o, fresh := s.fresh + 1 })

def Heap.allocBlock (s : Heap) (o : BlockObj) : Nat × Heap :=
  (s.fresh, { s with blocks := aSet s.blocks s.fresh o, fresh := s.fresh + 1 })

/-- `Pin.name = nm` (mutates the shared `Pin` object: every PinRef wrapping
it sees the new name). -/
def Heap.setPinName (s : Heap) (i : Nat) (nm : String) : Heap :=
  { s with pins := aSet s.pins i { s.pin i with name := nm } }

/-- `PinRef.connect_net` / `PinRef.disconnect_net`. -/
def Heap.setPinRefNet (s : Heap) (i : Nat) (n : Option Nat) : Heap :=
  { s with pinRefs := aSet s.pinRefs i { s.pinRef i with net := n } }

def Heap.setNet (s : Heap) (i : Nat) (o : NetObj) : Heap :=
  { s with nets := aSet s.nets i o }

def Heap.setInst (s : Heap) (i : Nat) (o : InstanceObj) : Heap :=
  { s with insts := aSet s.insts i o }

def Heap.setBlock (s : Heap) (i : Nat) (o : BlockObj) : Heap :=
  { s with blocks := aSet s.blocks i o }

/-- `PinRef.name`: delegates to the underlying `Pin`'s current name. -/
def Heap.pinRefName (s : Heap) (r : Nat) : String := (s.pin (s.pinRef r).pin).name

/-- The `Net.pins` / `Instance.interface_pins` property:
`{pin.name: pin for pin in list}`. -/
def Heap.pinsDict (s : Heap) (l : List Nat) : List (String × Nat) :=
  pyDict (l.map fun r => (s.pinRefName r, r))

/-- `Net.connect_pin`: append the PinRef and point its back-reference at the
net, with no guard against an already-connected PinRef. -/
def connectPin (s : Heap) (netId r : Nat) : Heap :=
  let n := s.net netId
  (s.setNet netId { n with pins := n.pins ++ [r] }).setPinRefNet r (some netId)

/-- `Net.disconnect_pin`: look the member up by name in the `pins` dict
(`KeyError` if absent), null its back-reference, remove it from the list. -/
def disconnectPin (s : Heap) (netId : Nat) (nm : String) : Except Err Unit × Heap :=
  let n := s.net netId
  match aGet (s.pinsDict n.pins) nm with
  | none => (.error .notFound, s)
  | some r =>
    let s' := s.setPinRefNet r none
    (.ok (), s'.setNet netId { s'.net netId with pins := lRemove (s'.net netId).pins r })

/-- `Net.disconnect_all_pins`: null every member's back-reference, then clear
the member list. -/
def disconnectAllPins (s : Heap) (netId : Nat) : Heap :=
  let n := s.net netId
  let s' := n.pins.foldl (fun h r => h.setPinRefNet r none) s
  s'.setNet netId { s'.net netId with pins := [] }

/-- `Instance.disconnect_all_pins`: for each PinRef with a net, disconnect it
from that net by name (an exception aborts the loop, as in Python). -/
def instDisconnectAllPins (s : Heap) (instId : Nat) : Except Err Unit × Heap :=
  let rec go : List Nat → Heap → Except Err Unit × Heap
    | [], h => (.ok (), h)
    | r :: rest, h =>
      match (h.pinRef r).net with
      | none => go rest h
      | some netId =>
        match disconnectPin h netId (h.pinRefName r) with
        | (.ok _, h') => go rest h'
        | (.error e, h') => (.error e, h')
  go (s.inst instId).interfacePins s

/-- First loop of `Instance.update_pins`: for each entry of the snapshot
dict whose name is no longer an interface pin of the type, `list.remove`
its PinRef from the live list (no disconnect happens). -/
def updatePinsPhase1 (blockPins pins : List (String × Nat)) (l : List Nat) :
    List Nat :=
  pins.foldl (fun l p => if aMem blockPins p.1 then l else lRemove l p.2) l

/-- One iteration of the second loop of `Instance.update_pins`: if the
interface pin name is missing from the snapshot dict, append a fresh
unconnected PinRef wrapping the same underlying Pin. -/
def updatePinsPhase2Step (pins : List (String × Nat)) (acc : List Nat × Heap)
    (bp : String × Nat) : List Nat × Heap :=
  if aMem pins bp.1 then acc
  else
    let (rid, h) := acc.2.allocPinRef ((acc.2.pinRef bp.2).pin)
    (acc.1 ++ [rid], h)

/-- `Instance.update_pins`: snapshot the name dict, drop each PinRef whose
name left the type's interface (without disconnecting it), then append a
fresh unconnected PinRef for each interface pin missing from the snapshot. -/
def updatePins (s : Heap) (instId : Nat) : Heap :=
  let i := s.inst instId
  let pins := s.pinsDict i.interfacePins
  let blockPins := (s.block i.typeId).interfacePinsRefs
  let l1 := updatePinsPhase1 blockPins pins i.interfacePins
  let step := blockPins.foldl (updatePinsPhase2Step pins) (l1, s)
  step.2.setInst instId { step.2.inst instId with interfacePins := step.1 }

/-- One iteration of the `primitive_pins` loop of `Block.__init__`: create
a Pin and its PinRef, record both under the pin name. -/
def mkBlockFoldStep (acc : BlockObj × Heap) (pn : String) : BlockObj × Heap :=
  let (pid, h) := acc.2.allocPin pn
  let (rid, h') := h.allocPinRef pid
  ({ acc.1 with interfacePins := aSet acc.1.interfacePins pn pid,
                interfacePinsRefs := aSet acc.1.interfacePinsRefs pn rid }, h')

/-- `Block.__init__`: a primitive block is created with one Pin and one
PinRef per entry of `primitive_pins`. -/
def mkBlock (s : Heap) (nm : String) (isPrim : Bool) (primPins : List String) :
    Nat × Heap :=
  let b0 : BlockObj := ⟨nm, [], [], [], [], isPrim⟩
  if isPrim then
    let step := primPins.foldl mkBlockFoldStep (b0, s)
    step.2.allocBlock step.1
  else
    s.allocBlock b0

/-- `Block.add_interface_pin`. -/
def addInterfacePin (s : Heap) (bId : Nat) (nm : String) : Except Err Nat × Heap :=
  let b := s.block bId
  if b.isPrimitive then (.error .immutableType, s)
  else if aMem b.interfacePins nm then (.error .duplicateName, s)
  else
    let (pid, h) := s.allocPin nm
    let (rid, h') := h.allocPinRef pid
    (.ok rid, h'.setBlock bId
      { h'.block bId with
        interfacePins := aSet (h'.block bId).interfacePins nm pid,
        interfacePinsRefs := aSet (h'.block bId).interfacePinsRefs nm rid })

/-- `Block.remove_interface_pin`: disconnect the block's own PinRef from its
net (by the removed name), then delete both dict entries. -/
def removeInterfacePin (s : Heap) (bId : Nat) (nm : String) : Except Err Unit × Heap :=
  let b := s.block bId
  if b.isPrimitive then (.error .immutableType, s)
  else
    match aGet b.interfacePinsRefs nm with
    | none => (.error .notFound, s)
    | some rid =>
      let step : Except Err Unit × Heap :=
        match (s.pinRef rid).net with
        | none => (.ok (), s)
        | some netId => disconnectPin s netId nm
      match step with
      | (.error e, h) => (.error e, h)
      | (.ok _, h) =>
        (.ok (), h.setBlock bId
          { h.block bId with
            interfacePins := aDel (h.block bId).interfacePins nm,
            interfacePinsRefs := aDel (h.block bId).interfacePinsRefs nm })

/-- `Block.rename_interface_pin`: rename the shared `Pin` object in place,
re-key both dicts (new key appended, old key deleted). -/
def renameInterfacePin (s : Heap) (bId : Nat) (oldNm newNm : String) :
    Except Err Unit × Heap :=
  let b := s.block bId
  if b.isPrimitive then (.error .immutableType, s)
  else if aMem b.interfacePins newNm then (.error .duplicateName, s)
  else
    match aGet b.interfacePins oldNm, aGet b.interfacePinsRefs oldNm with
    | some pid, some rid =>
      let h := s.setPinName pid newNm
      (.ok (), h.setBlock bId
        { h.block bId with
          interfacePins := aDel (aSet (h.block bId).interfacePins newNm pid) oldNm,
          interfacePinsRefs :=
            aDel (aSet (h.block bId).interfacePinsRefs newNm rid) oldNm })
    | _, _ => (.error .notFound, s)

/-- `Instance.__init__` inside `Block.add_instance`: one fresh unconnected
PinRef per interface pin of the type block, in dict order. -/
def addInstance (s : Heap) (parentId : Nat) (nm : String) (typeId : Nat) :
    Except Err Nat × Heap :=
  let b := s.block parentId
  if b.isPrimitive then (.error .immutableType, s)
  else if aMem b.instances nm then (.error .duplicateName, s)
  else
    let step := (s.block typeId).interfacePinsRefs.foldl
      (fun (acc : List Nat × Heap) bp =>
        let (rid, h) := acc.2.allocPinRef ((acc.2.pinRef bp.2).pin)
        (acc.1 ++ [rid], h))
      ([], s)
    let (iid, h) := step.2.allocInst ⟨nm, typeId, step.1⟩
    (.ok iid, h.setBlock parentId
      { h.block parentId with instances := aSet (h.block parentId).instances nm iid })

/-- `Block.remove_instance`: disconnect all instance pins, then delete the
dict entry. -/
def removeInstance (s : Heap) (bId : Nat) (nm : String) : Except Err Unit × Heap :=
  let b := s.block bId
  if b.isPrimitive then (.error .immutableType, s)
  else
    match aGet b.instances nm with
    | none => (.error .notFound, s)
    | some iid =>
      match instDisconnectAllPins s iid with
      | (.error e, h) => (.error e, h)
      | (.ok _, h) =>
        (.ok (), h.setBlock bId
          { h.block bId with instances := aDel (h.block bId).instances nm })

/-- `Block.rename_instance`. -/
def renameInstance (s : Heap) (bId : Nat) (oldNm newNm : String) :
    Except Err Unit × Heap :=
  let b := s.block bId
  if b.isPrimitive then (.error .immutableType, s)
  else if aMem b.instances newNm then (.error .duplicateName, s)
  else
    match aGet b.instances oldNm with
    | none => (.error .notFound, s)
    | some iid =>
      let h := s.setInst iid { s.inst iid with name := newNm }
      (.ok (), h.setBlock bId
        { h.block bId with
          instances := aDel (aSet (h.block bId).instances newNm iid) oldNm })

/-- `Block.add_net`. -/
def addNet (s : Heap) (bId : Nat) (nm : String) : Except Err Nat × Heap :=
  let b := s.block bId
  if b.isPrimitive then (.error .immutableType, s)
  else if aMem b.nets nm then (.error .duplicateName, s)
  else
    let (nid, h) := s.allocNet nm
    (.ok nid, h.setBlock bId
      { h.block bId with nets := aSet (h.block bId).nets nm nid })

/-- `Block.remove_net`: disconnect every member, then delete the dict entry. -/
def removeNet (s : Heap) (bId : Nat) (nm : String) : Except Err Unit × Heap :=
  let b := s.block bId
  if b.isPrimitive then (.error .immutableType, s)
  else
    match aGet b.nets nm with
    | none => (.error .notFound, s)
    | some nid =>
      let h := disconnectAllPins s nid
      (.ok (), h.setBlock bId
        { h.block bId with nets := aDel (h.block bId).nets nm })

/-- `Block.rename_net`. -/
def renameNet (s : Heap) (bId : Nat) (oldNm newNm : String) :
    Except Err Unit × Heap :=
  let b := s.block bId
  if b.isPrimitive then (.error .immutableType, s)
  else if aMem b.nets newNm then (.error .duplicateName, s)
  else
    match aGet b.nets oldNm with
    | none => (.error .notFound, s)
    | some nid =>
      let h := s.setNet nid { s.net nid with name := newNm }
      (.ok (), h.setBlock bId
        { h.block bId with nets := aDel (aSet (h.block bId).nets newNm nid) oldNm })

/-- `data.NetlistProject`: name-keyed block registry plus the reverse
instance index (`__blocks_instances`). -/
structure Project where
  heap : Heap
  blocks : List (String × Nat)
  blocksInstances : List (String × List Nat)
deriving DecidableEq, Repr

/-- `NetlistProject.__init__`.  The Python constructor deep-copies a dict of
pre-built primitive `Block` objects; here the copies are rebuilt from the
(name, primitive-pin-list) data that defines them, and the reverse index
gains an empty bucket per primitive name. -/
def projectInit (primitives : List (String × List String)) : Project :=
  let step := primitives.foldl
    (fun (acc : Project) p =>
      let (bId, h) := mkBlock acc.heap p.1 true p.2
      { acc with heap := h, blocks := aSet acc.blocks p.1 bId })
    ⟨Heap.empty, [], []⟩
  { step with
    blocksInstances := primitives.foldl (fun d p => aSet d p.1 ([] : List Nat)) [] }

/-- `NetlistProject.add_block`. -/
def addBlock (p : Project) (nm : String) : Except Err Nat × Project :=
  if aMem p.blocks nm then (.error .duplicateName, p)
  else
    let bi := if aMem p.blocksInstances nm then p.blocksInstances
              else aSet p.blocksInstances nm []
    let (bId, h) := mkBlock p.heap nm false []
    (.ok bId, { heap := h, blocks := aSet p.blocks nm bId, blocksInstances := bi })

/-- `NetlistProject.__update_block_instances`: `update_pins` on every
instance in the reverse-index bucket. -/
def updateBlockInstances (p : Project) (blockName : String) :
    Except Err Unit × Project :=
  match aGet p.blocksInstances blockName with
  | none => (.error .notFound, p)
  | some l => (.ok (), { p with heap := l.foldl (fun h i => updatePins h i) p.heap })

/-- `NetlistProject.add_pin_to_block`: reconcile the registered instances
FIRST, then create the pin on the block (the `print` call has no state
effect). -/
def addPinToBlock (p : Project) (blockName pinName : String) :
    Except Err Nat × Project :=
  match aGet p.blocks blockName with
  | none => (.error .notFound, p)
  | some bId =>
    match updateBlockInstances p blockName with
    | (.error e, p') => (.error e, p')
    | (.ok _, p') =>
      let step := addInterfacePin p'.heap bId pinName
      (step.1, { p' with heap := step.2 })

/-- `NetlistProject.remove_pin_from_block`: remove the pin from the block,
THEN reconcile the registered instances. -/
def removePinFromBlock (p : Project) (blockName pinName : String) :
    Except Err Unit × Project :=
  match aGet p.blocks blockName with
  | none => (.error .notFound, p)
  | some bId =>
    match removeInterfacePin p.heap bId pinName with
    | (.error e, h) => (.error e, { p with heap := h })
    | (.ok _, h) => updateBlockInstances { p with heap := h } blockName

/-- `NetlistProject.rename_pin_in_block` (no reconciliation: instance
PinRefs share the renamed `Pin` object). -/
def renamePinInBlock (p : Project) (blockName oldNm newNm : String) :
    Except Err Unit × Project :=
  match aGet p.blocks blockName with
  | none => (.error .notFound, p)
  | some bId =>
    let step := renameInterfacePin p.heap bId oldNm newNm
    (step.1, { p with heap := step.2 })

/-- `NetlistProject.add_instance_to_block`: create the instance in the
context block, then append it to the reverse-index bucket of the type. -/
def addInstanceToBlock (p : Project) (ctxName instName typeName : String) :
    Except Err Nat × Project :=
  match aGet p.blocks ctxName, aGet p.blocks typeName with
  | some ctxId, some typeId =>
    match addInstance p.heap ctxId instName typeId with
    | (.error e, h) => (.error e, { p with heap := h })
    | (.ok iid, h) =>
      match aGet p.blocksInstances typeName with
      | none => (.error .notFound, { p with heap := h })
      | some l =>
        let bi := aSet p.blocksInstances typeName (l ++ [iid])
        (.ok iid, { p with heap := h, blocksInstances := bi })
  | _, _ => (.error .notFound, p)

/-- `NetlistProject.remove_instance_from_block`: remove from the block, then
remove from the reverse-index bucket looked up by the type name recorded on
the instance. -/
def removeInstanceFromBlock (p : Project) (ctxName instName : String) :
    Except Err Unit × Project :=
  match aGet p.blocks ctxName with
  | none => (.error .notFound, p)
  | some ctxId =>
    match aGet (p.heap.block ctxId).instances instName with
    | none => (.error .notFound, p)
    | some iid =>
      let typeName := (p.heap.block (p.heap.inst iid).typeId).name
      match removeInstance p.heap ctxId instName with
      | (.error e, h) => (.error e, { p with heap := h })
      | (.ok _, h) =>
        match aGet p.blocksInstances typeName with
        | none => (.error .notFound, { p with heap := h })
        | some l =>
          if iid ∈ l then
            let bi := aSet p.blocksInstances typeName (l.erase iid)
            (.ok (), { p with heap := h, blocksInstances := bi })
          else (.error .valueError, { p with heap := h })

/-- `NetlistProject.add_net_to_block`. -/
def addNetToBlock (p : Project) (blockName netName : String) :
    Except Err Nat × Project :=
  match aGet p.blocks blockName with
  | none => (.error .notFound, p)
  | some bId =>
    let step := addNet p.heap bId netName
    (step.1, { p with heap := step.2 })

/-- `NetlistProject.remove_net_from_block`. -/
def removeNetFromBlock (p : Project) (blockName netName : String) :
    Except Err Unit × Project :=
  match aGet p.blocks blockName with
  | none => (.error .notFound, p)
  | some bId =>
    let step := removeNet p.heap bId netName
    (step.1, { p with heap := step.2 })

/-- `NetlistProject.connect_pin_to_net_in_block`: the caller passes the
PinRef object (here its id). -/
def connectPinToNetInBlock (p : Project) (blockName netName : String) (r : Nat) :
    Except Err Unit × Project :=
  match aGet p.blocks blockName with
  | none => (.error .notFound, p)
  | some bId =>
    match aGet (p.heap.block bId).nets netName with
    | none => (.error .notFound, p)
    | some nid => (.ok (), { p with heap := connectPin p.heap nid r })

/-- `NetlistProject.disconnect_pin_from_net_in_block`. -/
def disconnectPinFromNetInBlock (p : Project) (blockName netName pinName : String) :
    Except Err Unit × Project :=
  match aGet p.blocks blockName with
  | none => (.error .notFound, p)
  | some bId =>
    match aGet (p.heap.block bId).nets netName with
    | none => (.error .notFound, p)
    | some nid =>
      let step := disconnectPin p.heap nid pinName
      (step.1, { p with heap := step.2 })

/-! ## Connectivity graph engine (src/editor.py, src/graphical.py)

The visual layer of one block: wire segments with two endpoints each and
junction nodes hosted on a segment.  An endpoint is stored as Python stores
it, a pair (owner string, pin name), where a junction owner is the string
`"j:<junction id>"`. -/

/-- Data-model footprint of the junction-junction branch of
`Editor.add_net`'s `finish_wire` handler (src/editor.py lines 809-836):
resolve both components' nets by name, `connect_pin` every member of the end
net into the start net (iterating the end net's `pins` dict snapshot), then
`remove_net_from_block` on the end net.  Label/anonymisation updates touch
only the visual layer. -/
def addNetJunctionJunction (p : Project) (blockName startNetName endNetName : String) :
    Except Err Unit × Project :=
  match aGet p.blocks blockName with
  | none => (.error .notFound, p)
  | some bId =>
    let b := p.heap.block bId
    match aGet b.nets startNetName, aGet b.nets endNetName with
    | some startNet, some endNet =>
      let endPins := p.heap.pinsDict (p.heap.net endNet).pins
      let h := endPins.foldl (fun h pr => connectPin h startNet pr.2) p.heap
      removeNetFromBlock { p with heap := h } blockName endNetName
    | _, _ => (.error .notFound, p)

/-- `graphical.WireModel`: id, optional net name, two endpoints. -/
structure WireModel where
  id : String
  name : Option String
  wStart : String × String
  wEnd : String × String
deriving DecidableEq, Repr

/-- `graphical.JunctionModel`: id and host wire id. -/
structure JunctionModel where
  id : String
  wireId : Option String
deriving DecidableEq, Repr

/-- The wire/junction graph of one `BlockFrame.model`. -/
structure Visual where
  wires : List WireModel
  junctions : List JunctionModel
deriving DecidableEq, Repr

/-- `owner.startswith("j:")` / `owner.split(":", 1)[1]` for an endpoint
(the prefix is exactly the two characters `j:`, so taking everything after
the first colon is dropping those two characters; implemented on the
character list so the kernel can evaluate it). -/
def epJunction (e : String × String) : Option String :=
  match e.1.data with
  | 'j' :: ':' :: rest => some (String.mk rest)
  | _ => none

/-- Python-set insert (membership-guarded append); iteration order of these
modelled sets is insertion order, and every use below is order-insensitive. -/
def sInsert (l : List String) (x : String) : List String :=
  if x ∈ l then l else l ++ [x]

/-- One iteration body of `Editor._find_connected_wires`'s `while` loop,
fuelled; the fuel bound given to `findConnectedWires` dominates the loop's
iteration count (each popped wire id is visited at most once). -/
def findConnectedWiresGo (v : Visual) :
    Nat → List String → List String → List String → List String
  | 0, visitedW, _, _ => visitedW
  | fuel + 1, visitedW, visitedJ, toVisit =>
    match toVisit with
    | [] => visitedW
    | cur :: rest =>
      if cur ∈ visitedW then findConnectedWiresGo v fuel visitedW visitedJ rest
      else
        let visitedW' := visitedW ++ [cur]
        let cj1 := v.junctions.filterMap fun jm =>
          if jm.wireId = some cur ∧ jm.id ∉ visitedJ then some jm.id else none
        let cj2 :=
          match v.wires.find? (fun wm => wm.id = cur) with
          | none => []
          | some wm =>
            ((epJunction wm.wStart).toList ++ (epJunction wm.wEnd).toList).filter
              (· ∉ visitedJ)
        let cjs := (cj1 ++ cj2).foldl sInsert []
        let step := cjs.foldl
          (fun (acc : List String × List String) jid =>
            if jid ∈ acc.1 then acc
            else
              let vJ := acc.1 ++ [jid]
              let tv := v.wires.foldl
                (fun tv wm =>
                  if wm.id ∈ visitedW' then tv
                  else if wm.wStart.1 = "j:" ++ jid ∨ wm.wEnd.1 = "j:" ++ jid then
                    sInsert tv wm.id
                  else tv)
                acc.2
              let tv' := v.junctions.foldl
                (fun tv jm =>
                  match jm.wireId with
                  | none => tv
                  | some wid =>
                    if jm.id = jid ∧ wid ≠ "" ∧ wid ∉ visitedW' then sInsert tv wid
                    else tv)
                tv
              (vJ, tv'))
          (visitedJ, rest)
        findConnectedWiresGo v fuel visitedW' step.1 step.2

/-- `Editor._find_connected_wires`: breadth-first closure over the bipartite
wire/junction graph, returning every reachable wire id except the start. -/
def findConnectedWires (v : Visual) (wireId : String) : List String :=
  let res := findConnectedWiresGo v (v.wires.length + v.junctions.length + 1)
    [] [] [wireId]
  res.erase wireId

/-- `Controller._cleanup_orphan_junctions`: prune every junction whose host
wire id is `None` or absent from the current wire set (the second Python
pass prunes stale visual items mirroring these model lists). -/
def cleanupOrphanJunctions (v : Visual) : Visual :=
  let ids := v.wires.map (·.id)
  { v with junctions := v.junctions.filter fun j =>
      match j.wireId with
      | none => false
      | some w => w ∈ ids }

/-- `Controller.delete_wire`: drop the wire, drop junctions hosted on it,
then prune orphans. -/
def deleteWire (wid : String) (v : Visual) : Visual :=
  let wires := v.wires.filter fun w => w.id ≠ wid
  let junctions := v.junctions.filter fun j => j.wireId ≠ some wid
  cleanupOrphanJunctions ⟨wires, junctions⟩

/-- The editor session state `Editor.delete_net` operates on: the data
model plus the current block's visual graph. -/
structure EditorState where
  project : Project
  blockName : String
  visual : Visual
deriving DecidableEq, Repr

/-- `Editor.delete_net` on a selected wire: collect the connected component,
take the last named wire as the authoritative one, remove its net from the
data model (`_sync_net_removed` swallows model errors), then delete every
segment of the component.  A component with no named wire crashes in Python
before mutating anything; that path is modelled as a no-op and not exercised
by any theorem below. -/
def deleteNet (selId : String) (st : EditorState) : EditorState :=
  let connectedWires := findConnectedWires st.visual selId ++ [selId]
  let wireWithName := connectedWires.foldl
    (fun (acc : Option WireModel) wid =>
      match st.visual.wires.find? (fun w => w.id = wid) with
      | some w => if w.name ≠ none then some w else acc
      | none => acc)
    none
  match wireWithName with
  | none => st
  | some w =>
    let netName := w.name.getD ""
    let p := (removeNetFromBlock st.project st.blockName netName).2
    let v := connectedWires.foldl (fun v wid => deleteWire wid v) st.visual
    { st with project := p, visual := v }

/-! ## Association-list and list lemmas -/

theorem aGet_aSet_self {κ α : Type} [DecidableEq κ] (d : List (κ × α)) (k : κ) (v : α) :
    aGet (aSet d k v) k = some v := by
  induction d with
  | nil => simp [aGet, aSet]
  | cons q rest ih =>
    by_cases h : q.1 = k
    · simp [aGet, aSet, h]
    · simp [aGet, aSet, h, ih]

theorem aGet_aSet_ne {κ α : Type} [DecidableEq κ] (d : List (κ × α)) (k k' : κ) (v : α)
    (h : k' ≠ k) : aGet (aSet d k v) k' = aGet d k' := by
  have hkk : ¬ k = k' := fun hh => h hh.symm
  induction d with
  | nil => simp [aGet, aSet, hkk]
  | cons q rest ih =>
    by_cases hq : q.1 = k
    · subst hq
      simp [aGet, aSet, hkk]
    · simp [aGet, aSet, hq, ih]

theorem aSet_aSet {κ α : Type} [DecidableEq κ] (d : List (κ × α)) (k : κ) (v w : α) :
    aSet (aSet d k v) k w = aSet d k w := by
  induction d with
  | nil => simp [aSet]
  | cons q rest ih =>
    by_cases h : q.1 = k
    · simp [aSet, h]
    · simp [aSet, h, ih]

theorem mem_aKeys_of_aGet_some {κ α : Type} [DecidableEq κ] {d : List (κ × α)} {k : κ}
    {v : α} (h : aGet d k = some v) : k ∈ aKeys d := by
  induction d with
  | nil => simp [aGet] at h
  | cons q rest ih =>
    by_cases hq : q.1 = k
    · simp [aKeys, hq]
    · simp only [aGet, hq, if_false] at h
      simp [aKeys, List.mem_map] at ih ⊢
      exact Or.inr (by simpa [aKeys, List.mem_map] using ih h)

theorem aGet_eq_none_of_not_mem {κ α : Type} [DecidableEq κ] {d : List (κ × α)} {k : κ}
    (h : k ∉ aKeys d) : aGet d k = none := by
  cases hg : aGet d k with
  | none => rfl
  | some v => exact absurd (mem_aKeys_of_aGet_some hg) h

theorem aGet_aDel_self {κ α : Type} [DecidableEq κ] (d : List (κ × α)) (k : κ)
    (h : (aKeys d).Nodup) : aGet (aDel d k) k = none := by
  induction d with
  | nil => simp [aGet, aDel]
  | cons q rest ih =>
    simp only [aKeys, List.map_cons, List.nodup_cons] at h
    by_cases hq : q.1 = k
    · subst hq
      simp only [aDel, if_true]
      exact aGet_eq_none_of_not_mem h.1
    · simp only [aDel, hq, if_false, aGet]
      simp [hq, ih h.2]

theorem aMem_aSet {κ α : Type} [DecidableEq κ] (d : List (κ × α)) (k k' : κ) (v : α) :
    aMem (aSet d k v) k' = true ↔ k' = k ∨ aMem d k' = true := by
  by_cases h : k' = k
  · subst h
    simp [aMem, aGet_aSet_self]
  · simp [aMem, aGet_aSet_ne d k k' v h, h]

theorem aGet_none_of_keys_lt {α : Type} (d : List (Nat × α)) (n : Nat)
    (h : ∀ q ∈ d, q.1 < n) : aGet d n = none := by
  induction d with
  | nil => rfl
  | cons q rest ih =>
    have hq := h q (by simp)
    simp only [aGet, if_neg (Nat.ne_of_lt hq)]
    exact ih fun p hp => h p (by simp [hp])

theorem aSet_eq_append_of_aGet_none {κ α : Type} [DecidableEq κ]
    (d : List (κ × α)) (k : κ) (v : α) (h : aGet d k = none) :
    aSet d k v = d ++ [(k, v)] := by
  induction d with
  | nil => simp [aSet]
  | cons q rest ih =>
    by_cases hq : q.1 = k
    · simp [aGet, hq] at h
    · simp only [aGet, hq, if_false] at h
      simp [aSet, hq, ih h]

theorem aGet_append_ne {κ α : Type} [DecidableEq κ] (d : List (κ × α)) (k k' : κ) (v : α)
    (h : k' ≠ k) : aGet (d ++ [(k, v)]) k' = aGet d k' := by
  have hkk : ¬ k = k' := fun hh => h hh.symm
  induction d with
  | nil => simp [aGet, hkk]
  | cons q rest ih =>
    by_cases hq : q.1 = k'
    · simp [aGet, hq]
    · simp [aGet, hq, ih]

theorem mem_of_mem_aSet {κ α : Type} [DecidableEq κ] {d : List (κ × α)} {k : κ} {v : α}
    {q : κ × α} (h : q ∈ aSet d k v) : q ∈ d ∨ q = (k, v) := by
  induction d with
  | nil => simpa [aSet] using h
  | cons p rest ih =>
    by_cases hp : p.1 = k
    · simp only [aSet, hp, if_true] at h
      rcases List.mem_cons.mp h with h1 | h1
      · subst h1
        right
        rw [← hp]
      · exact Or.inl (List.mem_cons_of_mem _ h1)
    · simp only [aSet, hp, if_false] at h
      rcases List.mem_cons.mp h with h1 | h1
      · exact Or.inl (by simp [h1])
      · rcases ih h1 with h2 | h2
        · exact Or.inl (List.mem_cons_of_mem _ h2)
        · exact Or.inr h2

theorem mem_of_mem_foldl_aSet {α : Type} :
    ∀ (pairs acc : List (String × α)) (q : String × α),
      q ∈ pairs.foldl (fun d p => aSet d p.1 p.2) acc → q ∈ acc ∨ q ∈ pairs := by
  intro pairs
  induction pairs with
  | nil =>
    intro acc q hq
    exact Or.inl hq
  | cons p rest ih =>
    intro acc q hq
    simp only [List.foldl_cons] at hq
    rcases ih (aSet acc p.1 p.2) q hq with h1 | h1
    · rcases mem_of_mem_aSet h1 with h2 | h2
      · exact Or.inl h2
      · exact Or.inr (by simp [h2])
    · exact Or.inr (List.mem_cons_of_mem _ h1)

theorem mem_of_mem_pyDict {α : Type} {pairs : List (String × α)} {q : String × α}
    (h : q ∈ pyDict pairs) : q ∈ pairs := by
  rcases mem_of_mem_foldl_aSet pairs [] q h with h1 | h1
  · simp at h1
  · exact h1

theorem lRemove_cons_ne (l : List Nat) (x y : Nat) (h : y ≠ x) :
    lRemove (y :: l) x = y :: lRemove l x := by
  simp [lRemove, h]

theorem lRemove_cons_self (l : List Nat) (x : Nat) : lRemove (x :: l) x = l := by
  simp [lRemove]

theorem aGet_aDel_ne {κ α : Type} [DecidableEq κ] (d : List (κ × α)) (k k' : κ)
    (h : k' ≠ k) : aGet (aDel d k) k' = aGet d k' := by
  have hkk : ¬ k = k' := fun hh => h hh.symm
  induction d with
  | nil => rfl
  | cons q rest ih =>
    by_cases hq : q.1 = k
    · subst hq
      simp [aDel, aGet, hkk]
    · simp [aDel, aGet, hq, ih]

/-! ## Heap component lemmas -/

@[simp] theorem net_setPinRefNet (s : Heap) (i : Nat) (n : Option Nat) (j : Nat) :
    (s.setPinRefNet i n).net j = s.net j := rfl

@[simp] theorem net_setBlock (s : Heap) (i : Nat) (o : BlockObj) (j : Nat) :
    (s.setBlock i o).net j = s.net j := rfl

@[simp] theorem net_setInst (s : Heap) (i : Nat) (o : InstanceObj) (j : Nat) :
    (s.setInst i o).net j = s.net j := rfl

@[simp] theorem net_setPinName (s : Heap) (i : Nat) (nm : String) (j : Nat) :
    (s.setPinName i nm).net j = s.net j := rfl

@[simp] theorem pinRef_setNet (s : Heap) (i : Nat) (o : NetObj) (j : Nat) :
    (s.setNet i o).pinRef j = s.pinRef j := rfl

@[simp] theorem pinRef_setBlock (s : Heap) (i : Nat) (o : BlockObj) (j : Nat) :
    (s.setBlock i o).pinRef j = s.pinRef j := rfl

@[simp] theorem pinRef_setInst (s : Heap) (i : Nat) (o : InstanceObj) (j : Nat) :
    (s.setInst i o).pinRef j = s.pinRef j := rfl

@[simp] theorem block_setNet (s : Heap) (i : Nat) (o : NetObj) (j : Nat) :
    (s.setNet i o).block j = s.block j := rfl

@[simp] theorem block_setPinRefNet (s : Heap) (i : Nat) (n : Option Nat) (j : Nat) :
    (s.setPinRefNet i n).block j = s.block j := rfl

@[simp] theorem block_setInst (s : Heap) (i : Nat) (o : InstanceObj) (j : Nat) :
    (s.setInst i o).block j = s.block j := rfl

@[simp] theorem inst_setNet (s : Heap) (i : Nat) (o : NetObj) (j : Nat) :
    (s.setNet i o).inst j = s.inst j := rfl

@[simp] theorem inst_setPinRefNet (s : Heap) (i : Nat) (n : Option Nat) (j : Nat) :
    (s.setPinRefNet i n).inst j = s.inst j := rfl

@[simp] theorem inst_setBlock (s : Heap) (i : Nat) (o : BlockObj) (j : Nat) :
    (s.setBlock i o).inst j = s.inst j := rfl

@[simp] theorem pin_setNet (s : Heap) (i : Nat) (o : NetObj) (j : Nat) :
    (s.setNet i o).pin j = s.pin j := rfl

@[simp] theorem pin_setPinRefNet (s : Heap) (i : Nat) (n : Option Nat) (j : Nat) :
    (s.setPinRefNet i n).pin j = s.pin j := rfl

@[simp] theorem pin_setBlock (s : Heap) (i : Nat) (o : BlockObj) (j : Nat) :
    (s.setBlock i o).pin j = s.pin j := rfl

@[simp] theorem pin_setInst (s : Heap) (i : Nat) (o : InstanceObj) (j : Nat) :
    (s.setInst i o).pin j = s.pin j := rfl

theorem net_setNet_self (s : Heap) (i : Nat) (o : NetObj) : (s.setNet i o).net i = o := by
  simp [Heap.net, Heap.setNet, aGet_aSet_self]

theorem net_setNet_ne (s : Heap) (i : Nat) (o : NetObj) (j : Nat) (h : j ≠ i) :
    (s.setNet i o).net j = s.net j := by
  simp [Heap.net, Heap.setNet, aGet_aSet_ne _ _ _ _ h]

theorem pinRef_setPinRefNet_self (s : Heap) (i : Nat) (n : Option Nat) :
    (s.setPinRefNet i n).pinRef i = ⟨(s.pinRef i).pin, n⟩ := by
  simp [Heap.pinRef, Heap.setPinRefNet, aGet_aSet_self]

theorem pinRef_setPinRefNet_ne (s : Heap) (i : Nat) (n : Option Nat) (j : Nat)
    (h : j ≠ i) : (s.setPinRefNet i n).pinRef j = s.pinRef j := by
  simp [Heap.pinRef, Heap.setPinRefNet, aGet_aSet_ne _ _ _ _ h]

theorem block_setBlock_self (s : Heap) (i : Nat) (o : BlockObj) :
    (s.setBlock i o).block i = o := by
  simp [Heap.block, Heap.setBlock, aGet_aSet_self]

theorem inst_setInst_self (s : Heap) (i : Nat) (o : InstanceObj) :
    (s.setInst i o).inst i = o := by
  simp [Heap.inst, Heap.setInst, aGet_aSet_self]

@[simp] theorem pinRefName_setNet (s : Heap) (i : Nat) (o : NetObj) (r : Nat) :
    (s.setNet i o).pinRefName r = s.pinRefName r := rfl

@[simp] theorem pinRefName_setBlock (s : Heap) (i : Nat) (o : BlockObj) (r : Nat) :
    (s.setBlock i o).pinRefName r = s.pinRefName r := rfl

@[simp] theorem pinRefName_setInst (s : Heap) (i : Nat) (o : InstanceObj) (r : Nat) :
    (s.setInst i o).pinRefName r = s.pinRefName r := rfl

theorem pinRefName_setPinRefNet (s : Heap) (i : Nat) (n : Option Nat) (r : Nat) :
    (s.setPinRefNet i n).pinRefName r = s.pinRefName r := by
  by_cases h : r = i
  · subst h
    simp [Heap.pinRefName, pinRef_setPinRefNet_self]
  · simp [Heap.pinRefName, pinRef_setPinRefNet_ne _ _ _ _ h]

/-! ## C1: pin addition does not reach pre-existing instances

`add_pin_to_block` runs `__update_block_instances` BEFORE
`add_interface_pin`, so the reconciliation pass sees the block without the
new pin and pre-existing instances never receive it. -/

/-- Project with composite blocks `B` and `M` and an instance `i : B`
inside `M`, registered in the reverse index (block `B` is heap id 0, the
instance is heap id 2). -/
def pinAddState : Project :=
  (addInstanceToBlock (addBlock (addBlock (projectInit []) "B").2 "M").2 "M" "i" "B").2

/-- The project after `add_pin_to_block("B", "p")`. -/
def pinAddStateAfter : Project := (addPinToBlock pinAddState "B" "p").2

/-- C1: FALSE of the code.  `add_pin_to_block("B", "p")` succeeds on a block
with one registered instance, the pin is present on the block afterwards,
yet the instance's PinRef set is still empty: no PinRef named `p` appears in
it, because reconciliation ran before the pin was created. -/
theorem add_pin_to_block_does_not_propagate :
    (addPinToBlock pinAddState "B" "p").1.toBool = true ∧
    aGet pinAddState.blocks "B" = some 0 ∧
    aGet pinAddState.blocksInstances "B" = some [2] ∧
    aMem (pinAddStateAfter.heap.block 0).interfacePins "p" = true ∧
    aGet pinAddStateAfter.blocksInstances "B" = some [2] ∧
    (pinAddStateAfter.heap.inst 2).interfacePins = [] ∧
    (pinAddStateAfter.heap.pinsDict (pinAddStateAfter.heap.inst 2).interfacePins) = []
    := by decide

/-! ## C2: pin removal leaves stale net membership

`remove_pin_from_block` reconciles instances after removing the pin, but
`update_pins` drops an instance PinRef without disconnecting it, so a Net
the dropped PinRef belonged to keeps it as a member. -/

/-- Project with block `B` (pin `p`), block `M` containing instance `i : B`
(heap id 5) whose `p` PinRef (heap id 4) is connected to net `n` (heap id 6)
of `M`. -/
def pinRemoveState : Project :=
  let p1 := (addBlock (projectInit []) "B").2
  let p2 := (addPinToBlock p1 "B" "p").2
  let p3 := (addBlock p2 "M").2
  let p4 := (addInstanceToBlock p3 "M" "i" "B").2
  let p5 := (addNetToBlock p4 "M" "n").2
  (connectPinToNetInBlock p5 "M" "n" 4).2

/-- The project after `remove_pin_from_block("B", "p")`. -/
def pinRemoveStateAfter : Project := (removePinFromBlock pinRemoveState "B" "p").2

/-- C2: FALSE of the code.  After `remove_pin_from_block("B", "p")`
succeeds, no instance of `B` retains a PinRef named `p` (the instance's
list is empty), but net `n` of `M` STILL lists the dropped instance PinRef
(id 4, named `p`) among its members, and that PinRef still points back at
the net: the net did not lose the member as the claim requires. -/
theorem remove_pin_from_block_leaves_stale_net_member :
    (removePinFromBlock pinRemoveState "B" "p").1.toBool = true ∧
    aGet pinRemoveState.blocksInstances "B" = some [5] ∧
    (pinRemoveState.heap.net 6).pins = [4] ∧
    pinRemoveState.heap.pinRefName 4 = "p" ∧
    (pinRemoveStateAfter.heap.inst 5).interfacePins = [] ∧
    aMem (pinRemoveStateAfter.heap.block 0).interfacePins "p" = false ∧
    (pinRemoveStateAfter.heap.net 6).pins = [4] ∧
    pinRemoveStateAfter.heap.pinRefName 4 = "p" ∧
    (pinRemoveStateAfter.heap.pinRef 4).net = some 6
    := by decide

/-! ## C5: a PinRef can be listed by two Nets at once

`Net.connect_pin` appends unconditionally; nothing in the data layer
disconnects a PinRef from its previous Net first. -/

/-- Project reached through public mutation API calls only: block `m` with
pin `p` (PinRef id 2) and nets `n1` (id 3) and `n2` (id 4); the PinRef was
connected to `n1` and then, without a disconnect, to `n2`. -/
def doubleConnectState : Project :=
  let p1 := (addBlock (projectInit []) "m").2
  let p2 := (addPinToBlock p1 "m" "p").2
  let p3 := (addNetToBlock p2 "m" "n1").2
  let p4 := (addNetToBlock p3 "m" "n2").2
  let p5 := (connectPinToNetInBlock p4 "m" "n1" 2).2
  (connectPinToNetInBlock p5 "m" "n2" 2).2

/-- C5 counterexample: in a state reachable through the public mutation API
alone, the two distinct Nets `n1` and `n2` of block `m` simultaneously list
the same PinRef (id 2) among their members — the at-most-one-Net invariant
fails, and the PinRef joined `n2` without ever being disconnected from
`n1`. -/
theorem pinref_in_two_nets_reachable :
    aGet (doubleConnectState.heap.block 0).nets "n1" = some 3 ∧
    aGet (doubleConnectState.heap.block 0).nets "n2" = some 4 ∧
    (2 ∈ (doubleConnectState.heap.net 3).pins) ∧
    (2 ∈ (doubleConnectState.heap.net 4).pins) ∧
    (doubleConnectState.heap.pinRef 2).net = some 4
    := by decide

/-- C5 (amended): the net back-reference of a PinRef names at most one Net
at a time, but member lists are not exclusive: `connect_pin` on a PinRef
that is already a member of another Net A leaves it listed in A while also
joining B, with its back-reference moving to B.  The at-most-one-Net
invariant therefore holds only for callers that disconnect first. -/
theorem connect_pin_double_membership (s : Heap) (a b r : Nat) (hab : a ≠ b)
    (hr : r ∈ (s.net a).pins) :
    r ∈ ((connectPin s b r).net a).pins ∧
    r ∈ ((connectPin s b r).net b).pins ∧
    ((connectPin s b r).pinRef r).net = some b := by
  refine ⟨?_, ?_, ?_⟩
  · simp only [connectPin, net_setPinRefNet]
    rw [net_setNet_ne _ _ _ _ hab]
    exact hr
  · simp only [connectPin, net_setPinRefNet, net_setNet_self]
    simp
  · simp only [connectPin]
    rw [pinRef_setPinRefNet_self]

/-- Intermediate state of `doubleConnectState` just before the second
connect (PinRef 2 is a member of net 3 only). -/
def doubleConnectStateBefore : Project :=
  let p1 := (addBlock (projectInit []) "m").2
  let p2 := (addPinToBlock p1 "m" "p").2
  let p3 := (addNetToBlock p2 "m" "n1").2
  let p4 := (addNetToBlock p3 "m" "n2").2
  (connectPinToNetInBlock p4 "m" "n1" 2).2

/-- C5 witness: the amended statement evaluated on the concrete
double-connect scenario. -/
theorem connect_pin_double_membership_witness :
    2 ∈ ((connectPin doubleConnectStateBefore.heap 4 2).net 3).pins ∧
    2 ∈ ((connectPin doubleConnectStateBefore.heap 4 2).net 4).pins ∧
    ((connectPin doubleConnectStateBefore.heap 4 2).pinRef 2).net = some 4 :=
  connect_pin_double_membership doubleConnectStateBefore.heap 3 4 2
    (by decide) (by decide)

/-! ## C10: connect-connect-disconnect-disconnect round trip -/

/-- C10: on a fresh (empty) Net, connecting two distinct, initially
unconnected PinRefs and then disconnecting both by name (the names current
at each call, as Python's `pin.name` lookups do) leaves the Net's member
collection empty and both PinRefs with no net.  Both disconnects succeed.
No assumption is made on the two display names: if they collide, the
dict-based lookup removes the pins in the opposite order, with the same
final state. -/
theorem net_roundtrip_connect_disconnect (s : Heap) (nid p1 p2 : Nat)
    (hfresh : (s.net nid).pins = [])
    (hne : p1 ≠ p2)
    (hu1 : (s.pinRef p1).net = none)
    (hu2 : (s.pinRef p2).net = none) :
    let s1 := connectPin s nid p1
    let s2 := connectPin s1 nid p2
    let d1 := disconnectPin s2 nid (s2.pinRefName p1)
    let d2 := disconnectPin d1.2 nid ((d1.2).pinRefName p2)
    d1.1 = .ok () ∧ d2.1 = .ok () ∧ ((d2.2).net nid).pins = [] ∧
    ((d2.2).pinRef p1).net = none ∧ ((d2.2).pinRef p2).net = none := by
  intro s1 s2 d1 d2
  clear hu1 hu2
  have hne' : ¬ p1 = p2 := hne
  have hne2 : ¬ p2 = p1 := fun h => hne h.symm
  have hs2net : s2.net nid = ⟨(s.net nid).name, [p1, p2]⟩ := by
    simp [s2, s1, connectPin, net_setPinRefNet, net_setNet_self, hfresh]
  have hnm1 : s2.pinRefName p1 = s.pinRefName p1 := by
    simp only [s2, s1, connectPin, pinRefName_setPinRefNet, pinRefName_setNet]
  have hnm2 : s2.pinRefName p2 = s.pinRefName p2 := by
    simp only [s2, s1, connectPin, pinRefName_setPinRefNet, pinRefName_setNet]
  have hdict : s2.pinsDict [p1, p2] =
      aSet [(s.pinRefName p1, p1)] (s.pinRefName p2) p2 := by
    simp [Heap.pinsDict, pyDict, hnm1, hnm2, aSet]
  by_cases hA : s.pinRefName p1 = s.pinRefName p2
  · have hdict' : s2.pinsDict [p1, p2] = [(s.pinRefName p1, p2)] := by
      rw [hdict, hA]
      simp [aSet]
    have hd1 : d1 = (.ok (), (s2.setPinRefNet p2 none).setNet nid
        ⟨(s.net nid).name, [p1]⟩) := by
      simp only [d1, disconnectPin, hs2net, hnm1, hdict', aGet, if_pos rfl,
        net_setPinRefNet, hs2net]
      simp [lRemove, hne']
    have hD1net : (d1.2).net nid = ⟨(s.net nid).name, [p1]⟩ := by
      rw [hd1]
      simp [net_setNet_self]
    have hD1nm1 : (d1.2).pinRefName p1 = s.pinRefName p1 := by
      rw [hd1]
      simp [pinRefName_setPinRefNet, hnm1]
    have hD1nm2 : (d1.2).pinRefName p2 = s.pinRefName p2 := by
      rw [hd1]
      simp [pinRefName_setPinRefNet, hnm2]
    have hdict2 : (d1.2).pinsDict [p1] = [(s.pinRefName p1, p1)] := by
      simp [Heap.pinsDict, pyDict, hD1nm1, aSet]
    have hd2 : d2 = (.ok (), ((d1.2).setPinRefNet p1 none).setNet nid
        ⟨(s.net nid).name, []⟩) := by
      simp only [d2, disconnectPin, hD1net, hD1nm2, ← hA, hdict2, aGet, if_pos rfl,
        net_setPinRefNet, hD1net]
      simp [lRemove]
    refine ⟨by rw [hd1], by rw [hd2], ?_, ?_, ?_⟩
    · rw [hd2]
      simp [net_setNet_self]
    · rw [hd2]
      simp [pinRef_setPinRefNet_self]
    · rw [hd2, hd1]
      simp [pinRef_setPinRefNet_ne _ _ _ _ hne2, pinRef_setPinRefNet_self]
  · have hdict' : s2.pinsDict [p1, p2] =
        [(s.pinRefName p1, p1), (s.pinRefName p2, p2)] := by
      rw [hdict]
      simp [aSet, hA]
    have hd1 : d1 = (.ok (), (s2.setPinRefNet p1 none).setNet nid
        ⟨(s.net nid).name, [p2]⟩) := by
      simp only [d1, disconnectPin, hs2net, hnm1, hdict', aGet, if_pos rfl,
        net_setPinRefNet, hs2net]
      simp [lRemove]
    have hD1net : (d1.2).net nid = ⟨(s.net nid).name, [p2]⟩ := by
      rw [hd1]
      simp [net_setNet_self]
    have hD1nm2 : (d1.2).pinRefName p2 = s.pinRefName p2 := by
      rw [hd1]
      simp [pinRefName_setPinRefNet, hnm2]
    have hdict2 : (d1.2).pinsDict [p2] = [(s.pinRefName p2, p2)] := by
      simp [Heap.pinsDict, pyDict, hD1nm2, aSet]
    have hd2 : d2 = (.ok (), ((d1.2).setPinRefNet p2 none).setNet nid
        ⟨(s.net nid).name, []⟩) := by
      simp only [d2, disconnectPin, hD1net, hD1nm2, hdict2, aGet, if_pos rfl,
        net_setPinRefNet, hD1net]
      simp [lRemove]
    refine ⟨by rw [hd1], by rw [hd2], ?_, ?_, ?_⟩
    · rw [hd2]
      simp [net_setNet_self]
    · rw [hd2, hd1]
      simp [pinRef_setPinRefNet_ne _ _ _ _ hne', pinRef_setPinRefNet_self]
    · rw [hd2]
      simp [pinRef_setPinRefNet_self]

/-- A two-pin heap with an empty net for the C10 witness: pins `x` (id 0)
and `y` (id 1), unconnected PinRefs 2 and 3, empty net 4. -/
def roundtripHeap : Heap :=
  ⟨[(0, ⟨"x"⟩), (1, ⟨"y"⟩)], [(2, ⟨0, none⟩), (3, ⟨1, none⟩)],
   [(4, ⟨"n", []⟩)], [], [], 5⟩

/-- C10 witness: the round trip evaluated on a concrete two-pin heap. -/
theorem net_roundtrip_connect_disconnect_witness :
    let s1 := connectPin roundtripHeap 4 2
    let s2 := connectPin s1 4 3
    let d1 := disconnectPin s2 4 (s2.pinRefName 2)
    let d2 := disconnectPin d1.2 4 ((d1.2).pinRefName 3)
    d1.1 = .ok () ∧ d2.1 = .ok () ∧ ((d2.2).net 4).pins = [] ∧
    ((d2.2).pinRef 2).net = none ∧ ((d2.2).pinRef 3).net = none :=
  net_roundtrip_connect_disconnect roundtripHeap 4 2 3
    (by decide) (by decide) (by decide) (by decide)

/-! ## C6 and C7: the junction-junction merge -/

/-- Full state characterisation of the junction-junction merge branch on a
block whose net `an` (id `aid`) holds members `[p1, p2]` and net `en` (id
`eid`) holds members `[p3, p4]` with distinct display names: the branch
succeeds, the surviving net's member list becomes `[p1, p2, p3, p4]`, the
absorbed net leaves the block's net dict while the survivor stays, and both
moved PinRefs end with a `none` back-reference (nulled by
`disconnect_all_pins` inside `remove_net`). -/
theorem addNetJunctionJunction_spec (p : Project) (bId : Nat) (bn an en : String)
    (aid eid p1 p2 p3 p4 : Nat)
    (hb : aGet p.blocks bn = some bId)
    (hprim : (p.heap.block bId).isPrimitive = false)
    (ha : aGet (p.heap.block bId).nets an = some aid)
    (he : aGet (p.heap.block bId).nets en = some eid)
    (hne : aid ≠ eid)
    (hA : (p.heap.net aid).pins = [p1, p2])
    (hE : (p.heap.net eid).pins = [p3, p4])
    (hnm : p.heap.pinRefName p3 ≠ p.heap.pinRefName p4)
    (hkeys : (aKeys (p.heap.block bId).nets).Nodup) :
    (addNetJunctionJunction p bn an en).1 = .ok () ∧
    ((addNetJunctionJunction p bn an en).2.heap.net aid).pins = [p1, p2, p3, p4] ∧
    aGet ((addNetJunctionJunction p bn an en).2.heap.block bId).nets en = none ∧
    aGet ((addNetJunctionJunction p bn an en).2.heap.block bId).nets an = some aid ∧
    ((addNetJunctionJunction p bn an en).2.heap.pinRef p3).net = none ∧
    ((addNetJunctionJunction p bn an en).2.heap.pinRef p4).net = none := by
  have hp34 : p3 ≠ p4 := fun h => hnm (by rw [h])
  have heidaid : eid ≠ aid := fun h => hne h.symm
  have hanen : an ≠ en := by
    intro h
    rw [h, he] at ha
    exact hne (Option.some.inj ha).symm
  have hdictE : p.heap.pinsDict [p3, p4] =
      [(p.heap.pinRefName p3, p3), (p.heap.pinRefName p4, p4)] := by
    simp [Heap.pinsDict, pyDict, aSet, hnm]
  set H2 : Heap := connectPin (connectPin p.heap aid p3) aid p4 with hH2
  set S3 : Heap := (H2.setPinRefNet p3 none).setPinRefNet p4 none with hS3
  have hfold : ([(p.heap.pinRefName p3, p3), (p.heap.pinRefName p4, p4)]).foldl
      (fun h pr => connectPin h aid pr.2) p.heap = H2 := by
    simp [hH2]
  have hres : addNetJunctionJunction p bn an en =
      removeNetFromBlock { p with heap := H2 } bn en := by
    simp only [addNetJunctionJunction, hb, ha, he, hE, hdictE, hfold]
  have hH2block : H2.block bId = p.heap.block bId := by
    simp [hH2, connectPin]
  have hH2neta : H2.net aid = ⟨(p.heap.net aid).name, [p1, p2, p3, p4]⟩ := by
    simp [hH2, connectPin, net_setNet_self, hA]
  have hH2nete : H2.net eid = p.heap.net eid := by
    simp [hH2, connectPin, net_setNet_ne _ _ _ _ heidaid]
  have hS3nete : S3.net eid = p.heap.net eid := by
    rw [hS3]
    simp only [net_setPinRefNet]
    exact hH2nete
  have hdisc : disconnectAllPins H2 eid =
      S3.setNet eid ⟨(p.heap.net eid).name, []⟩ := by
    simp only [disconnectAllPins, hH2nete, hE, List.foldl]
    rw [← hS3, hS3nete]
  have hS3block : S3.block bId = p.heap.block bId := by
    rw [hS3]
    simp only [block_setPinRefNet]
    exact hH2block
  have hremove : removeNetFromBlock { p with heap := H2 } bn en =
      (.ok (), { p with heap := (S3.setNet eid ⟨(p.heap.net eid).name, []⟩).setBlock bId ⟨(p.heap.block bId).name, (p.heap.block bId).instances, (p.heap.block bId).interfacePins, (p.heap.block bId).interfacePinsRefs, aDel (p.heap.block bId).nets en, (p.heap.block bId).isPrimitive⟩ }) := by
    simp only [removeNetFromBlock, removeNet, hb, hH2block, hprim, he, hdisc,
      block_setNet, hS3block, Bool.false_eq_true, if_false]
  rw [hres, hremove]
  refine ⟨rfl, ?_, ?_, ?_, ?_, ?_⟩
  · show (((S3.setNet eid _).setBlock bId _).net aid).pins = _
    rw [net_setBlock, net_setNet_ne _ _ _ _ hne]
    rw [hS3]
    simp only [net_setPinRefNet]
    rw [hH2neta]
  · show aGet ((((S3.setNet eid _).setBlock bId _)).block bId).nets en = none
    rw [block_setBlock_self]
    exact aGet_aDel_self _ _ hkeys
  · show aGet ((((S3.setNet eid _).setBlock bId _)).block bId).nets an = some aid
    rw [block_setBlock_self]
    show aGet (aDel (p.heap.block bId).nets en) an = some aid
    rw [aGet_aDel_ne _ _ _ hanen]
    exact ha
  · show ((((S3.setNet eid _).setBlock bId _)).pinRef p3).net = none
    rw [pinRef_setBlock, pinRef_setNet, hS3]
    rw [pinRef_setPinRefNet_ne _ _ _ _ hp34, pinRef_setPinRefNet_self]
  · show ((((S3.setNet eid _).setBlock bId _)).pinRef p4).net = none
    rw [pinRef_setBlock, pinRef_setNet, hS3]
    rw [pinRef_setPinRefNet_self]

/-- Merge scenario in which the absorbed net's two members share a display
name, built through the public API: block `main` (id 0) with pins `p1`,
`p2` (PinRefs 2, 4) on net `A` (id 12), block `T` with pin `a`, two
instances `i1`, `i2` of `T` inside `main` whose `a` PinRefs (ids 8 and 10,
both displaying `a`) are on net `B` (id 13). -/
def mergeCollapseState : Project :=
  let z1 := (addBlock (projectInit []) "main").2
  let z2 := (addPinToBlock z1 "main" "p1").2
  let z3 := (addPinToBlock z2 "main" "p2").2
  let z4 := (addBlock z3 "T").2
  let z5 := (addPinToBlock z4 "T" "a").2
  let z6 := (addInstanceToBlock z5 "main" "i1" "T").2
  let z7 := (addInstanceToBlock z6 "main" "i2" "T").2
  let z8 := (addNetToBlock z7 "main" "A").2
  let z9 := (addNetToBlock z8 "main" "B").2
  let zA := (connectPinToNetInBlock z9 "main" "A" 2).2
  let zB := (connectPinToNetInBlock zA "main" "A" 4).2
  let zC := (connectPinToNetInBlock zB "main" "B" 8).2
  (connectPinToNetInBlock zC "main" "B" 10).2

/-- C6 counterexample: net `A` holds `{p1, p2}` = PinRefs 2, 4 and net `B`
holds `{p3, p4}` = the two distinct instance PinRefs 8, 10, which both
display the name `a`.  The junction-junction merge succeeds and removes
net B, but the name-keyed `Net.pins` snapshot dict collapses the two
members, so only PinRef 10 is moved: the surviving net's member list is
`[2, 4, 10]` and PinRef 8 is not a member (it ends connected to nothing) —
the claimed member set `{p1, p2, p3, p4}` is wrong for this reachable
merge. -/
theorem junction_merge_drops_collapsed_member :
    aGet (mergeCollapseState.heap.block 0).nets "A" = some 12 ∧
    aGet (mergeCollapseState.heap.block 0).nets "B" = some 13 ∧
    (mergeCollapseState.heap.net 12).pins = [2, 4] ∧
    (mergeCollapseState.heap.net 13).pins = [8, 10] ∧
    (8 : Nat) ≠ 10 ∧
    mergeCollapseState.heap.pinRefName 8 = "a" ∧
    mergeCollapseState.heap.pinRefName 10 = "a" ∧
    (addNetJunctionJunction mergeCollapseState "main" "A" "B").1 = .ok () ∧
    ((addNetJunctionJunction mergeCollapseState "main" "A" "B").2.heap.net 12).pins
      = [2, 4, 10] ∧
    (8 ∉ ((addNetJunctionJunction mergeCollapseState "main" "A" "B").2.heap.net
      12).pins) ∧
    ((addNetJunctionJunction mergeCollapseState "main" "A" "B").2.heap.pinRef 8).net
      = none ∧
    aGet ((addNetJunctionJunction mergeCollapseState "main" "A" "B").2.heap.block
      0).nets "B" = none := by decide

/-- C6 (amended: restricted to merges in which the absorbed net's members
have distinct display names; the counterexample shows that when two
absorbed members share a name, the name-keyed `Net.pins` snapshot collapses
them and only the last one reaches the survivor).  Finishing a wire between
junctions of two different components — net A (id `aid`, members
`{p1, p2}`) and net B (id `eid`, members `{p3, p4}`, distinct display
names) of the same block — succeeds, leaves the surviving net's member
list exactly `[p1, p2, p3, p4]`, removes net B's name from the owning
block's net map, and keeps the surviving net registered under its name. -/
theorem junction_merge_members_and_removal (p : Project) (bId : Nat)
    (bn an en : String) (aid eid p1 p2 p3 p4 : Nat)
    (hb : aGet p.blocks bn = some bId)
    (hprim : (p.heap.block bId).isPrimitive = false)
    (ha : aGet (p.heap.block bId).nets an = some aid)
    (he : aGet (p.heap.block bId).nets en = some eid)
    (hne : aid ≠ eid)
    (hA : (p.heap.net aid).pins = [p1, p2])
    (hE : (p.heap.net eid).pins = [p3, p4])
    (hnm : p.heap.pinRefName p3 ≠ p.heap.pinRefName p4)
    (hkeys : (aKeys (p.heap.block bId).nets).Nodup) :
    (addNetJunctionJunction p bn an en).1 = .ok () ∧
    ((addNetJunctionJunction p bn an en).2.heap.net aid).pins = [p1, p2, p3, p4] ∧
    aGet ((addNetJunctionJunction p bn an en).2.heap.block bId).nets en = none ∧
    aGet ((addNetJunctionJunction p bn an en).2.heap.block bId).nets an = some aid := by
  obtain ⟨h1, h2, h3, h4, -, -⟩ :=
    addNetJunctionJunction_spec p bId bn an en aid eid p1 p2 p3 p4
      hb hprim ha he hne hA hE hnm hkeys
  exact ⟨h1, h2, h3, h4⟩

/-- C7: after the junction-junction merge, both PinRefs moved out of the
absorbed net report no net (`remove_net`'s `disconnect_all_pins` nulled
their back-references after `connect_pin` had set them) while still
appearing in the surviving net's member list. -/
theorem junction_merge_moved_pins_disconnected (p : Project) (bId : Nat)
    (bn an en : String) (aid eid p1 p2 p3 p4 : Nat)
    (hb : aGet p.blocks bn = some bId)
    (hprim : (p.heap.block bId).isPrimitive = false)
    (ha : aGet (p.heap.block bId).nets an = some aid)
    (he : aGet (p.heap.block bId).nets en = some eid)
    (hne : aid ≠ eid)
    (hA : (p.heap.net aid).pins = [p1, p2])
    (hE : (p.heap.net eid).pins = [p3, p4])
    (hnm : p.heap.pinRefName p3 ≠ p.heap.pinRefName p4)
    (hkeys : (aKeys (p.heap.block bId).nets).Nodup) :
    ((addNetJunctionJunction p bn an en).2.heap.pinRef p3).net = none ∧
    ((addNetJunctionJunction p bn an en).2.heap.pinRef p4).net = none ∧
    p3 ∈ ((addNetJunctionJunction p bn an en).2.heap.net aid).pins ∧
    p4 ∈ ((addNetJunctionJunction p bn an en).2.heap.net aid).pins := by
  obtain ⟨-, h2, -, -, h5, h6⟩ :=
    addNetJunctionJunction_spec p bId bn an en aid eid p1 p2 p3 p4
      hb hprim ha he hne hA hE hnm hkeys
  refine ⟨h5, h6, ?_, ?_⟩
  · rw [h2]
    simp
  · rw [h2]
    simp

/-- Concrete merge scenario built through the public API: block `main`
(id 0) with pins `q1`..`q4` (PinRefs 2, 4, 6, 8), net `A` (id 9) holding
PinRefs 2 and 4, net `B` (id 10) holding PinRefs 6 and 8. -/
def mergeState : Project :=
  let s1 := (addBlock (projectInit []) "main").2
  let s2 := (addPinToBlock s1 "main" "q1").2
  let s3 := (addPinToBlock s2 "main" "q2").2
  let s4 := (addPinToBlock s3 "main" "q3").2
  let s5 := (addPinToBlock s4 "main" "q4").2
  let s6 := (addNetToBlock s5 "main" "A").2
  let s7 := (addNetToBlock s6 "main" "B").2
  let s8 := (connectPinToNetInBlock s7 "main" "A" 2).2
  let s9 := (connectPinToNetInBlock s8 "main" "A" 4).2
  let sa := (connectPinToNetInBlock s9 "main" "B" 6).2
  (connectPinToNetInBlock sa "main" "B" 8).2

/-- C6 witness: the merge statement evaluated on the concrete scenario. -/
theorem junction_merge_members_and_removal_witness :
    (addNetJunctionJunction mergeState "main" "A" "B").1 = .ok () ∧
    ((addNetJunctionJunction mergeState "main" "A" "B").2.heap.net 9).pins
      = [2, 4, 6, 8] ∧
    aGet ((addNetJunctionJunction mergeState "main" "A" "B").2.heap.block 0).nets "B"
      = none ∧
    aGet ((addNetJunctionJunction mergeState "main" "A" "B").2.heap.block 0).nets "A"
      = some 9 :=
  junction_merge_members_and_removal mergeState 0 "main" "A" "B" 9 10 2 4 6 8
    (by decide) (by decide) (by decide) (by decide) (by decide) (by decide)
    (by decide) (by decide) (by decide)

/-- C7 witness: the moved-pin statement evaluated on the concrete
scenario. -/
theorem junction_merge_moved_pins_disconnected_witness :
    ((addNetJunctionJunction mergeState "main" "A" "B").2.heap.pinRef 6).net = none ∧
    ((addNetJunctionJunction mergeState "main" "A" "B").2.heap.pinRef 8).net = none ∧
    6 ∈ ((addNetJunctionJunction mergeState "main" "A" "B").2.heap.net 9).pins ∧
    8 ∈ ((addNetJunctionJunction mergeState "main" "A" "B").2.heap.net 9).pins :=
  junction_merge_moved_pins_disconnected mergeState 0 "main" "A" "B" 9 10 2 4 6 8
    (by decide) (by decide) (by decide) (by decide) (by decide) (by decide)
    (by decide) (by decide) (by decide)

/-! ## C4: duplicate-name additions -/

/-- The heap after constructing primitive block `t` with pin list `["a"]`
(the block is heap id 2). -/
def primDupHeap : Heap := (mkBlock Heap.empty "t" true ["a"]).2

/-- C4 counterexample: on a PRIMITIVE block whose pin map already contains
the name, `add_interface_pin` fails with the immutability error, not
`DuplicateName` — the primitive check runs first. -/
theorem add_duplicate_on_primitive_gives_immutableType :
    (mkBlock Heap.empty "t" true ["a"]).1 = 2 ∧
    aMem (primDupHeap.block 2).interfacePins "a" = true ∧
    addInterfacePin primDupHeap 2 "a" = (.error .immutableType, primDupHeap) ∧
    Err.immutableType ≠ Err.duplicateName := by decide

/-- C4 (amended: restricted to non-primitive blocks, where the duplicate
check is reached; on a primitive block the same calls fail with the
immutability error instead).  On a non-primitive block whose relevant map
already contains the name, `add_interface_pin`, `add_instance` and
`add_net` each fail with `DuplicateName` and return the heap unchanged;
likewise `add_block` on a project already containing the block name fails
with `DuplicateName` and returns the project unchanged (so the existing
block and the block map are untouched). -/
theorem duplicate_add_fails_unchanged (s : Heap) (bId : Nat) (nm : String)
    (tId : Nat) (p : Project)
    (hprim : (s.block bId).isPrimitive = false)
    (hpin : aMem (s.block bId).interfacePins nm = true)
    (hinst : aMem (s.block bId).instances nm = true)
    (hnet : aMem (s.block bId).nets nm = true)
    (hblk : aMem p.blocks nm = true) :
    addInterfacePin s bId nm = (.error .duplicateName, s) ∧
    addInstance s bId nm tId = (.error .duplicateName, s) ∧
    addNet s bId nm = (.error .duplicateName, s) ∧
    addBlock p nm = (.error .duplicateName, p) := by
  refine ⟨?_, ?_, ?_, ?_⟩
  · simp [addInterfacePin, hprim, hpin]
  · simp [addInstance, hprim, hinst]
  · simp [addNet, hprim, hnet]
  · simp [addBlock, hblk]

/-- Non-primitive block `x` (heap id 0) whose pin, instance and net maps
all contain the name `x`, inside a project whose block map also holds
`x`. -/
def dupState : Project :=
  let q := (addBlock (projectInit []) "x").2
  let h1 := (addInterfacePin q.heap 0 "x").2
  let h2 := (addInstance h1 0 "x" 0).2
  let h3 := (addNet h2 0 "x").2
  { q with heap := h3 }

/-- C4 witness: the amended statement evaluated on the concrete duplicate
scenario. -/
theorem duplicate_add_fails_unchanged_witness :
    addInterfacePin dupState.heap 0 "x" = (.error .duplicateName, dupState.heap) ∧
    addInstance dupState.heap 0 "x" 0 = (.error .duplicateName, dupState.heap) ∧
    addNet dupState.heap 0 "x" = (.error .duplicateName, dupState.heap) ∧
    addBlock dupState "x" = (.error .duplicateName, dupState) :=
  duplicate_add_fails_unchanged dupState.heap 0 "x" 0 dupState
    (by decide) (by decide) (by decide) (by decide) (by decide)

/-! ## C8: component-atomic deletion of a three-segment net -/

/-- Data model for the C8 scene: block `main` (id 0) with pins `p1`, `p2`
(PinRefs 2, 4) connected to net `net1` (id 5). -/
def threeSegmentProject : Project :=
  let s1 := (addBlock (projectInit []) "main").2
  let s2 := (addPinToBlock s1 "main" "p1").2
  let s3 := (addPinToBlock s2 "main" "p2").2
  let s4 := (addNetToBlock s3 "main" "net1").2
  let s5 := (connectPinToNetInBlock s4 "main" "net1" 2).2
  (connectPinToNetInBlock s5 "main" "net1" 4).2

/-- Visual component of one net: named segment `w1` between two terminals,
junction `j1` hosted on `w1`, anonymous segment `w2` from `j1` to an
instance terminal, junction `j2` hosted on `w2`, anonymous segment `w3`
from `j2` to another terminal — three segments, two junctions. -/
def threeSegmentVisual : Visual :=
  ⟨[⟨"w1", some "net1", ("block:0", "p1"), ("block:0", "p2")⟩,
    ⟨"w2", none, ("j:j1", ""), ("inst:9", "a")⟩,
    ⟨"w3", none, ("j:j2", ""), ("inst:9", "b")⟩],
   [⟨"j1", some "w1"⟩, ⟨"j2", some "w2"⟩]⟩

/-- The C8 editor state: the data model plus the three-segment visual. -/
def threeSegmentState : EditorState :=
  ⟨threeSegmentProject, "main", threeSegmentVisual⟩

/-- C8: on a net drawn as three segments and two junctions, deleting ANY of
the three segments removes all three segments, both junctions and the
owning Net `net1` from the model; with no junctions left, no junction with
a dangling host segment id can remain.  The traversal from each segment
indeed finds the other two. -/
theorem delete_net_component_atomic :
    findConnectedWires threeSegmentVisual "w1" = ["w2", "w3"] ∧
    findConnectedWires threeSegmentVisual "w2" = ["w3", "w1"] ∧
    findConnectedWires threeSegmentVisual "w3" = ["w2", "w1"] ∧
    (deleteNet "w1" threeSegmentState).visual = ⟨[], []⟩ ∧
    (deleteNet "w2" threeSegmentState).visual = ⟨[], []⟩ ∧
    (deleteNet "w3" threeSegmentState).visual = ⟨[], []⟩ ∧
    aGet ((deleteNet "w1" threeSegmentState).project.heap.block 0).nets "net1" = none ∧
    aGet ((deleteNet "w2" threeSegmentState).project.heap.block 0).nets "net1" = none ∧
    aGet ((deleteNet "w3" threeSegmentState).project.heap.block 0).nets "net1" = none
    := by decide

/-! ## C3: primitive blocks are immutable -/

/-- The nine structural mutations `Block` exposes. -/
inductive BlockOp where
  | pinAdd (nm : String)
  | pinRemove (nm : String)
  | pinRename (oldNm newNm : String)
  | instAdd (nm : String) (typeId : Nat)
  | instRemove (nm : String)
  | instRename (oldNm newNm : String)
  | netAdd (nm : String)
  | netRemove (nm : String)
  | netRename (oldNm newNm : String)
deriving DecidableEq, Repr

/-- Dispatch one `Block` mutation (results of the add operations are
discarded; the returned error and post state are kept). -/
def applyBlockOp (s : Heap) (bId : Nat) : BlockOp → Except Err Unit × Heap
  | .pinAdd nm =>
    let r := addInterfacePin s bId nm
    (r.1.map fun _ => (), r.2)
  | .pinRemove nm => removeInterfacePin s bId nm
  | .pinRename a b => renameInterfacePin s bId a b
  | .instAdd nm t =>
    let r := addInstance s bId nm t
    (r.1.map fun _ => (), r.2)
  | .instRemove nm => removeInstance s bId nm
  | .instRename a b => renameInstance s bId a b
  | .netAdd nm =>
    let r := addNet s bId nm
    (r.1.map fun _ => (), r.2)
  | .netRemove nm => removeNet s bId nm
  | .netRename a b => renameNet s bId a b

/-- Run a sequence of `Block` mutations, keeping whatever state each one
leaves behind (Python state survives a raised exception). -/
def applyBlockOps (s : Heap) (bId : Nat) (ops : List BlockOp) : Heap :=
  ops.foldl (fun h op => (applyBlockOp h bId op).2) s

theorem applyBlockOp_primitive (s : Heap) (bId : Nat) (op : BlockOp)
    (h : (s.block bId).isPrimitive = true) :
    applyBlockOp s bId op = (.error .immutableType, s) := by
  cases op <;>
    simp [applyBlockOp, addInterfacePin, removeInterfacePin, renameInterfacePin,
      addInstance, removeInstance, renameInstance, addNet, removeNet, renameNet,
      h, Except.map]

theorem applyBlockOps_primitive (s : Heap) (bId : Nat) (ops : List BlockOp)
    (h : (s.block bId).isPrimitive = true) :
    applyBlockOps s bId ops = s := by
  induction ops with
  | nil => rfl
  | cons op rest ih =>
    show applyBlockOps (applyBlockOp s bId op).2 bId rest = s
    rw [applyBlockOp_primitive s bId op h]
    exact ih

theorem mkBlockFold_isPrimitive :
    ∀ (L : List String) (acc : BlockObj × Heap),
      ((L.foldl mkBlockFoldStep acc).1).isPrimitive = acc.1.isPrimitive := by
  intro L
  induction L with
  | nil => intro acc; rfl
  | cons pn rest ih =>
    intro acc
    simp only [List.foldl_cons]
    rw [ih]
    rfl

theorem mkBlockFold_pin_mem :
    ∀ (L : List String) (acc : BlockObj × Heap) (x : String),
      aMem ((L.foldl mkBlockFoldStep acc).1).interfacePins x = true ↔
        x ∈ L ∨ aMem acc.1.interfacePins x = true := by
  intro L
  induction L with
  | nil =>
    intro acc x
    simp
  | cons pn rest ih =>
    intro acc x
    simp only [List.foldl_cons]
    rw [ih]
    have hstep : (mkBlockFoldStep acc pn).1.interfacePins =
        aSet acc.1.interfacePins pn (acc.2.fresh) := rfl
    rw [hstep, aMem_aSet]
    constructor
    · rintro (h1 | h1 | h1)
      · exact Or.inl (List.mem_cons_of_mem _ h1)
      · exact Or.inl (by simp [h1])
      · exact Or.inr h1
    · rintro (h1 | h1)
      · rcases List.mem_cons.mp h1 with h2 | h2
        · exact Or.inr (Or.inl h2)
        · exact Or.inl h2
      · exact Or.inr (Or.inr h1)

theorem mkBlock_primitive_block (s : Heap) (nm : String) (L : List String) :
    (mkBlock s nm true L).2.block (mkBlock s nm true L).1 =
      (L.foldl mkBlockFoldStep (⟨nm, [], [], [], [], true⟩, s)).1 := by
  simp only [mkBlock, if_pos, Heap.allocBlock]
  exact block_setBlock_self _ _ _

/-- C3: a Block constructed primitive with pin list `L` rejects every one
of the nine structural mutations with the immutability error and is left
unchanged by it; consequently any sequence of such mutations leaves the
whole heap unchanged, and after any such sequence the block's
interface-pin name set is still exactly the set of names in `L`. -/
theorem primitive_block_immutable (s : Heap) (nm : String) (L : List String)
    (op : BlockOp) (ops : List BlockOp) :
    applyBlockOp (mkBlock s nm true L).2 (mkBlock s nm true L).1 op
      = (.error .immutableType, (mkBlock s nm true L).2) ∧
    applyBlockOps (mkBlock s nm true L).2 (mkBlock s nm true L).1 ops
      = (mkBlock s nm true L).2 ∧
    (∀ x, aMem ((applyBlockOps (mkBlock s nm true L).2 (mkBlock s nm true L).1
        ops).block (mkBlock s nm true L).1).interfacePins x = true ↔ x ∈ L) := by
  have hprim : ((mkBlock s nm true L).2.block (mkBlock s nm true L).1).isPrimitive
      = true := by
    rw [mkBlock_primitive_block, mkBlockFold_isPrimitive]
  have hops := applyBlockOps_primitive (mkBlock s nm true L).2
    (mkBlock s nm true L).1 ops hprim
  refine ⟨applyBlockOp_primitive _ _ op hprim, hops, ?_⟩
  intro x
  rw [hops, mkBlock_primitive_block, mkBlockFold_pin_mem]
  simp [aMem, aGet]

/-! ## C9: idempotence of update_pins -/


theorem aMem_of_mem {κ α : Type} [DecidableEq κ] {d : List (κ × α)} {q : κ × α}
    (h : q ∈ d) : aMem d q.1 = true := by
  induction d with
  | nil => simp at h
  | cons p rest ih =>
    rcases List.mem_cons.mp h with h1 | h1
    · subst h1
      simp [aMem, aGet]
    · by_cases hp : p.1 = q.1
      · simp [aMem, aGet, hp]
      · simpa [aMem, aGet, hp] using ih h1

theorem mem_aKeys_of_aMem {κ α : Type} [DecidableEq κ] {d : List (κ × α)} {k : κ}
    (h : aMem d k = true) : k ∈ aKeys d := by
  rcases Option.isSome_iff_exists.mp h with ⟨v, hv⟩
  exact mem_aKeys_of_aGet_some hv

theorem aMem_foldl_aSet {α : Type} :
    ∀ (pairs acc : List (String × α)) (k : String),
      aMem (pairs.foldl (fun d p => aSet d p.1 p.2) acc) k = true ↔
        k ∈ pairs.map Prod.fst ∨ aMem acc k = true := by
  intro pairs
  induction pairs with
  | nil =>
    intro acc k
    simp
  | cons p rest ih =>
    intro acc k
    simp only [List.foldl_cons, List.map_cons, List.mem_cons]
    rw [ih, aMem_aSet]
    tauto

theorem aMem_pyDict {α : Type} (pairs : List (String × α)) (k : String) :
    aMem (pyDict pairs) k = true ↔ k ∈ pairs.map Prod.fst := by
  rw [pyDict, aMem_foldl_aSet]
  simp [aMem, aGet]

theorem foldl_aSet_append {α : Type} :
    ∀ (pairs acc : List (String × α)),
      (pairs.map Prod.fst).Nodup →
      (∀ k ∈ pairs.map Prod.fst, k ∉ aKeys acc) →
      pairs.foldl (fun d p => aSet d p.1 p.2) acc = acc ++ pairs := by
  intro pairs
  induction pairs with
  | nil =>
    intro acc _ _
    simp
  | cons p rest ih =>
    intro acc hnd hdisj
    simp only [List.map_cons, List.nodup_cons] at hnd
    have hset : aSet acc p.1 p.2 = acc ++ [p] := by
      have := aSet_eq_append_of_aGet_none acc p.1 p.2
        (aGet_eq_none_of_not_mem (hdisj p.1 (by simp)))
      simpa using this
    simp only [List.foldl_cons]
    rw [hset, ih (acc ++ [p]) hnd.2]
    · simp
    · intro k hk hmem
      simp only [aKeys, List.map_append, List.mem_append] at hmem
      rcases hmem with hm | hm
      · exact hdisj k (by simp [hk]) hm
      · simp at hm
        rw [hm] at hk
        exact hnd.1 hk

theorem pyDict_eq_self {α : Type} (pairs : List (String × α))
    (h : (pairs.map Prod.fst).Nodup) : pyDict pairs = pairs := by
  rw [pyDict, foldl_aSet_append pairs [] h (by simp [aKeys])]
  simp

theorem pinsDict_of_nodup (s : Heap) (l : List Nat)
    (h : (l.map s.pinRefName).Nodup) :
    s.pinsDict l = l.map fun r => (s.pinRefName r, r) := by
  rw [Heap.pinsDict, pyDict_eq_self]
  simpa [List.map_map, Function.comp] using h

theorem phase1_cons (B : List (String × Nat)) :
    ∀ (pairs : List (String × Nat)) (M : List Nat) (r : Nat),
      r ∉ pairs.map Prod.snd →
      updatePinsPhase1 B pairs (r :: M) = r :: updatePinsPhase1 B pairs M := by
  intro pairs
  induction pairs with
  | nil =>
    intro M r _
    rfl
  | cons p rest ih =>
    intro M r hr
    simp only [List.map_cons, List.mem_cons, not_or] at hr
    by_cases hc : aMem B p.1 = true
    · have h1 : updatePinsPhase1 B (p :: rest) (r :: M) =
          updatePinsPhase1 B rest (r :: M) := by
        simp [updatePinsPhase1, hc]
      have h2 : updatePinsPhase1 B (p :: rest) M = updatePinsPhase1 B rest M := by
        simp [updatePinsPhase1, hc]
      rw [h1, h2]
      exact ih M r hr.2
    · have h1 : updatePinsPhase1 B (p :: rest) (r :: M) =
          updatePinsPhase1 B rest (lRemove (r :: M) p.2) := by
        simp [updatePinsPhase1, hc]
      have h2 : updatePinsPhase1 B (p :: rest) M =
          updatePinsPhase1 B rest (lRemove M p.2) := by
        simp [updatePinsPhase1, hc]
      rw [h1, h2, lRemove_cons_ne _ _ _ hr.1]
      exact ih _ r hr.2

theorem phase1_filter (B : List (String × Nat)) (f : Nat → String) :
    ∀ (L : List Nat), L.Nodup →
      updatePinsPhase1 B (L.map fun r => (f r, r)) L =
        L.filter fun r => aMem B (f r) := by
  intro L
  induction L with
  | nil =>
    intro _
    rfl
  | cons r rest ih =>
    intro hnd
    simp only [List.nodup_cons] at hnd
    simp only [List.map_cons]
    by_cases hc : aMem B (f r) = true
    · have h1 : updatePinsPhase1 B ((f r, r) :: rest.map fun x => (f x, x)) (r :: rest)
          = updatePinsPhase1 B (rest.map fun x => (f x, x)) (r :: rest) := by
        simp [updatePinsPhase1, hc]
      rw [h1, phase1_cons B _ rest r (by simpa [List.map_map] using hnd.1),
        ih hnd.2]
      simp [List.filter_cons, hc]
    · have h1 : updatePinsPhase1 B ((f r, r) :: rest.map fun x => (f x, x)) (r :: rest)
          = updatePinsPhase1 B (rest.map fun x => (f x, x)) (lRemove (r :: rest) r) := by
        simp [updatePinsPhase1, hc]
      rw [h1, lRemove_cons_self, ih hnd.2]
      simp [List.filter_cons, hc]

theorem phase1_noop (B : List (String × Nat)) :
    ∀ (pairs : List (String × Nat)) (M : List Nat),
      (∀ p ∈ pairs, aMem B p.1 = true) → updatePinsPhase1 B pairs M = M := by
  intro pairs
  induction pairs with
  | nil =>
    intro M _
    rfl
  | cons p rest ih =>
    intro M hall
    have h1 : updatePinsPhase1 B (p :: rest) M = updatePinsPhase1 B rest M := by
      simp [updatePinsPhase1, hall p (by simp)]
    rw [h1]
    exact ih M fun q hq => hall q (by simp [hq])

theorem phase2_noop (pins : List (String × Nat)) :
    ∀ (B : List (String × Nat)) (acc : List Nat × Heap),
      (∀ bp ∈ B, aMem pins bp.1 = true) →
      B.foldl (updatePinsPhase2Step pins) acc = acc := by
  intro B
  induction B with
  | nil =>
    intro acc _
    rfl
  | cons bp rest ih =>
    intro acc hall
    simp only [List.foldl_cons]
    have h1 : updatePinsPhase2Step pins acc bp = acc := by
      simp [updatePinsPhase2Step, hall bp (by simp)]
    rw [h1]
    exact ih acc fun q hq => hall q (by simp [hq])

theorem setInst_setInst (s : Heap) (i : Nat) (o o' : InstanceObj) :
    (s.setInst i o).setInst i o' = s.setInst i o' := by
  simp [Heap.setInst, aSet_aSet]



theorem phase2_spec (pins0 : List (String × Nat)) :
    ∀ (B : List (String × Nat)) (l0 : List Nat) (s0 : Heap),
      (∀ q ∈ s0.pinRefs, q.1 < s0.fresh) →
      (∀ pr ∈ B, pr.2 < s0.fresh) →
      (B.foldl (updatePinsPhase2Step pins0) (l0, s0)).2.pins = s0.pins ∧
      (B.foldl (updatePinsPhase2Step pins0) (l0, s0)).2.nets = s0.nets ∧
      (B.foldl (updatePinsPhase2Step pins0) (l0, s0)).2.insts = s0.insts ∧
      (B.foldl (updatePinsPhase2Step pins0) (l0, s0)).2.blocks = s0.blocks ∧
      s0.fresh ≤ (B.foldl (updatePinsPhase2Step pins0) (l0, s0)).2.fresh ∧
      (∀ q ∈ (B.foldl (updatePinsPhase2Step pins0) (l0, s0)).2.pinRefs,
        q.1 < (B.foldl (updatePinsPhase2Step pins0) (l0, s0)).2.fresh) ∧
      (∀ k, k < s0.fresh →
        aGet (B.foldl (updatePinsPhase2Step pins0) (l0, s0)).2.pinRefs k
          = aGet s0.pinRefs k) ∧
      (∃ news : List Nat,
        (B.foldl (updatePinsPhase2Step pins0) (l0, s0)).1 = l0 ++ news ∧
        (∀ r ∈ news, ∃ pr, pr ∈ B ∧ aMem pins0 pr.1 = false ∧
          aGet (B.foldl (updatePinsPhase2Step pins0) (l0, s0)).2.pinRefs r
            = some ⟨(s0.pinRef pr.2).pin, none⟩) ∧
        (∀ pr ∈ B, aMem pins0 pr.1 = false →
          ∃ r ∈ news,
            aGet (B.foldl (updatePinsPhase2Step pins0) (l0, s0)).2.pinRefs r
              = some ⟨(s0.pinRef pr.2).pin, none⟩)) := by
  intro B
  induction B with
  | nil =>
    intro l0 s0 hRB _
    refine ⟨rfl, rfl, rfl, rfl, Nat.le_refl _, hRB, fun k _ => rfl,
      ⟨[], by simp, ?_, ?_⟩⟩
    · intro r hr
      simp at hr
    · intro pr hpr _
      simp at hpr
  | cons bp Brest ih =>
    intro l0 s0 hRB hBB
    by_cases hc : aMem pins0 bp.1 = true
    · have hstep : updatePinsPhase2Step pins0 (l0, s0) bp = (l0, s0) := by
        simp [updatePinsPhase2Step, hc]
      simp only [List.foldl_cons, hstep]
      obtain ⟨e1, e2, e3, e4, e5, e6, e7, news, hn1, hn2, hn3⟩ :=
        ih l0 s0 hRB (fun pr hpr => hBB pr (List.mem_cons_of_mem _ hpr))
      refine ⟨e1, e2, e3, e4, e5, e6, e7, news, hn1, ?_, ?_⟩
      · intro r hr
        obtain ⟨pr, hpr, hfalse, hval⟩ := hn2 r hr
        exact ⟨pr, List.mem_cons_of_mem _ hpr, hfalse, hval⟩
      · intro pr hpr hfalse
        rcases List.mem_cons.mp hpr with h1 | h1
        · subst h1
          rw [hfalse] at hc
          simp at hc
        · exact hn3 pr h1 hfalse
    · have hval : Heap.allocPinRef s0 ((s0.pinRef bp.2).pin)
          = (s0.fresh, { s0 with
              pinRefs := aSet s0.pinRefs s0.fresh ⟨(s0.pinRef bp.2).pin, none⟩,
              fresh := s0.fresh + 1 }) := rfl
      have hstep : updatePinsPhase2Step pins0 (l0, s0) bp =
          (l0 ++ [s0.fresh], { s0 with
            pinRefs := aSet s0.pinRefs s0.fresh ⟨(s0.pinRef bp.2).pin, none⟩,
            fresh := s0.fresh + 1 }) := by
        simp [updatePinsPhase2Step, hc, hval]
      set S1 : Heap := { s0 with
          pinRefs := aSet s0.pinRefs s0.fresh ⟨(s0.pinRef bp.2).pin, none⟩,
          fresh := s0.fresh + 1 } with hS1
      have hfreshnotin : aGet s0.pinRefs s0.fresh = none :=
        aGet_none_of_keys_lt s0.pinRefs s0.fresh hRB
      have hRB1 : ∀ q ∈ S1.pinRefs, q.1 < S1.fresh := by
        intro q hq
        rcases mem_of_mem_aSet hq with h1 | h1
        · exact Nat.lt_trans (hRB q h1) (Nat.lt_succ_self _)
        · rw [h1]
          exact Nat.lt_succ_self _
      have hBB1 : ∀ pr ∈ Brest, pr.2 < S1.fresh := fun pr hpr =>
        Nat.lt_trans (hBB pr (List.mem_cons_of_mem _ hpr)) (Nat.lt_succ_self _)
      have hS1stable : ∀ j, j ≠ s0.fresh → aGet S1.pinRefs j = aGet s0.pinRefs j := by
        intro j hj
        rw [hS1]
        exact aGet_aSet_ne _ _ _ _ hj
      have hS1pinRef : ∀ j, j < s0.fresh → S1.pinRef j = s0.pinRef j := by
        intro j hj
        show (aGet S1.pinRefs j).getD _ = _
        rw [hS1stable j (Nat.ne_of_lt hj)]
        rfl
      simp only [List.foldl_cons, hstep]
      obtain ⟨e1, e2, e3, e4, e5, e6, e7, news', hn1, hn2, hn3⟩ :=
        ih (l0 ++ [s0.fresh]) S1 hRB1 hBB1
      have hS0S1 : s0.fresh < S1.fresh := Nat.lt_succ_self _
      refine ⟨e1, e2, e3, e4, Nat.le_trans (Nat.le_succ _) e5, e6, ?_,
        ⟨s0.fresh :: news', by simp [hn1], ?_, ?_⟩⟩
      · intro k hk
        rw [e7 k (Nat.lt_trans hk hS0S1), hS1stable k (Nat.ne_of_lt hk)]
      · intro r hr
        rcases List.mem_cons.mp hr with h1 | h1
        · subst h1
          refine ⟨bp, List.mem_cons_self _ _, by simpa using hc, ?_⟩
          rw [e7 s0.fresh hS0S1, hS1]
          exact aGet_aSet_self _ _ _
        · obtain ⟨pr, hpr, hfalse, hvalr⟩ := hn2 r h1
          refine ⟨pr, List.mem_cons_of_mem _ hpr, hfalse, ?_⟩
          rw [hvalr, hS1pinRef pr.2 (hBB pr (List.mem_cons_of_mem _ hpr))]
      · intro pr hpr hfalse
        rcases List.mem_cons.mp hpr with h1 | h1
        · subst h1
          refine ⟨s0.fresh, List.mem_cons_self _ _, ?_⟩
          rw [e7 s0.fresh hS0S1, hS1]
          exact aGet_aSet_self _ _ _
        · obtain ⟨r, hrn, hvalr⟩ := hn3 pr h1 hfalse
          refine ⟨r, List.mem_cons_of_mem _ hrn, ?_⟩
          rw [hvalr, hS1pinRef pr.2 (hBB pr (List.mem_cons_of_mem _ h1))]



/-- C9 (amended: restricted to instances whose PinRef display names are
pairwise distinct, as holds for every instance maintained exclusively
through `NetlistProject` operations; the counterexample shows the
restriction is necessary when rename aliasing plus direct `Block`-level
edits give an instance two same-named stale PinRefs).  For such an
instance, with the standard heap invariants (allocated ids below the fresh
counter, interface-pin dict keys naming their PinRefs), a second
`update_pins` with the type's interface unchanged in between is a complete
no-op: the whole heap, the instance's PinRef list included, is unchanged. -/
theorem update_pins_idempotent (s : Heap) (iid : Nat)
    (hNames : (((s.inst iid).interfacePins).map s.pinRefName).Nodup)
    (hAgree : ∀ pr ∈ (s.block (s.inst iid).typeId).interfacePinsRefs,
        s.pinRefName pr.2 = pr.1)
    (hIB : ∀ r ∈ (s.inst iid).interfacePins, r < s.fresh)
    (hRB : ∀ q ∈ s.pinRefs, q.1 < s.fresh)
    (hBB : ∀ pr ∈ (s.block (s.inst iid).typeId).interfacePinsRefs,
        pr.2 < s.fresh) :
    updatePins (updatePins s iid) iid = updatePins s iid := by
  have hLnd : ((s.inst iid).interfacePins).Nodup := List.Nodup.of_map _ hNames
  have hpins0 : s.pinsDict (s.inst iid).interfacePins =
      (s.inst iid).interfacePins.map fun r => (s.pinRefName r, r) :=
    pinsDict_of_nodup s _ hNames
  have hl1 : updatePinsPhase1 (s.block (s.inst iid).typeId).interfacePinsRefs
      (s.pinsDict (s.inst iid).interfacePins) (s.inst iid).interfacePins =
      (s.inst iid).interfacePins.filter
        (fun r => aMem (s.block (s.inst iid).typeId).interfacePinsRefs
          (s.pinRefName r)) := by
    rw [hpins0]
    exact phase1_filter _ _ _ hLnd
  obtain ⟨e1, e2, e3, e4, e5, e6, e7, news, hn1, hn2, hn3⟩ :=
    phase2_spec (s.pinsDict (s.inst iid).interfacePins)
      (s.block (s.inst iid).typeId).interfacePinsRefs
      ((s.inst iid).interfacePins.filter
        (fun r => aMem (s.block (s.inst iid).typeId).interfacePinsRefs
          (s.pinRefName r))) s hRB hBB
  set R := ((s.block (s.inst iid).typeId).interfacePinsRefs).foldl
    (updatePinsPhase2Step (s.pinsDict (s.inst iid).interfacePins))
    ((s.inst iid).interfacePins.filter
      (fun r => aMem (s.block (s.inst iid).typeId).interfacePinsRefs
        (s.pinRefName r)), s) with hRdef
  have hRinst : R.2.inst iid = s.inst iid := by
    simp only [Heap.inst, e3]
  have hs' : updatePins s iid = R.2.setInst iid
      ⟨(s.inst iid).name, (s.inst iid).typeId, R.1⟩ := by
    show (let i := s.inst iid
      let pins := s.pinsDict i.interfacePins
      let blockPins := (s.block i.typeId).interfacePinsRefs
      let l1 := updatePinsPhase1 blockPins pins i.interfacePins
      let step := blockPins.foldl (updatePinsPhase2Step pins) (l1, s)
      step.2.setInst iid { step.2.inst iid with interfacePins := step.1 }) = _
    simp only [hl1, ← hRdef, hRinst]
  -- name stability for pre-existing refs
  have hstabname : ∀ r, r < s.fresh → R.2.pinRefName r = s.pinRefName r := by
    intro r hr
    have hpr : R.2.pinRef r = s.pinRef r := by
      simp only [Heap.pinRef]
      rw [e7 r hr]
    simp only [Heap.pinRefName, hpr, Heap.pin, e1]
  -- names of freshly appended refs are interface-pin names
  have hnewname : ∀ r ∈ news, ∃ pr ∈ (s.block (s.inst iid).typeId).interfacePinsRefs,
      aMem (s.pinsDict (s.inst iid).interfacePins) pr.1 = false ∧
      R.2.pinRefName r = pr.1 := by
    intro r hr
    obtain ⟨pr, hpr, hfalse, hval⟩ := hn2 r hr
    refine ⟨pr, hpr, hfalse, ?_⟩
    have hprr : R.2.pinRef r = ⟨(s.pinRef pr.2).pin, none⟩ := by
      simp only [Heap.pinRef]
      rw [hval]
      rfl
    have hag := hAgree pr hpr
    simp only [Heap.pinRefName, Heap.pin] at hag ⊢
    rw [hprr, e1]
    exact hag
  -- every member of the updated list has a current interface-pin name
  have hkeyfact : ∀ r ∈ R.1,
      aMem (s.block (s.inst iid).typeId).interfacePinsRefs (R.2.pinRefName r)
        = true := by
    intro r hr
    rw [hn1] at hr
    rcases List.mem_append.mp hr with h1 | h1
    · obtain ⟨hrL, hcond⟩ := List.mem_filter.mp h1
      rw [hstabname r (hIB r hrL)]
      exact hcond
    · obtain ⟨pr, hpr, -, heq⟩ := hnewname r h1
      rw [heq]
      exact aMem_of_mem hpr
  rw [hs']
  -- second call: all four phases are identities
  have hi2 : (R.2.setInst iid ⟨(s.inst iid).name, (s.inst iid).typeId, R.1⟩).inst iid
      = ⟨(s.inst iid).name, (s.inst iid).typeId, R.1⟩ := inst_setInst_self _ _ _
  have hblock2 : ((R.2.setInst iid
        ⟨(s.inst iid).name, (s.inst iid).typeId, R.1⟩).block (s.inst iid).typeId)
      = s.block (s.inst iid).typeId := by
    rw [block_setInst]
    simp only [Heap.block, e4]
  have hnm2 : ∀ r, (R.2.setInst iid
      ⟨(s.inst iid).name, (s.inst iid).typeId, R.1⟩).pinRefName r
      = R.2.pinRefName r := fun r => pinRefName_setInst _ _ _ _
  have hph1 : updatePinsPhase1
      (s.block (s.inst iid).typeId).interfacePinsRefs
      ((R.2.setInst iid ⟨(s.inst iid).name, (s.inst iid).typeId, R.1⟩).pinsDict R.1)
      R.1 = R.1 := by
    apply phase1_noop
    intro p hp
    have := mem_of_mem_pyDict hp
    obtain ⟨r, hrmem, hreq⟩ := List.mem_map.mp this
    rw [← hreq]
    show aMem _ ((R.2.setInst iid _).pinRefName r) = true
    rw [hnm2 r]
    exact hkeyfact r hrmem
  have hph2 : ((s.block (s.inst iid).typeId).interfacePinsRefs).foldl
      (updatePinsPhase2Step ((R.2.setInst iid
        ⟨(s.inst iid).name, (s.inst iid).typeId, R.1⟩).pinsDict R.1))
      (R.1, R.2.setInst iid ⟨(s.inst iid).name, (s.inst iid).typeId, R.1⟩)
      = (R.1, R.2.setInst iid ⟨(s.inst iid).name, (s.inst iid).typeId, R.1⟩) := by
    apply phase2_noop
    intro bp hbp
    simp only [Heap.pinsDict]
    rw [aMem_pyDict]
    have hkeys : (R.1.map fun r => ((R.2.setInst iid
        ⟨(s.inst iid).name, (s.inst iid).typeId, R.1⟩).pinRefName r, r)).map Prod.fst
        = R.1.map fun r => R.2.pinRefName r := by
      simp only [List.map_map]
      apply List.map_congr_left
      intro r _
      exact hnm2 r
    rw [hkeys]
    by_cases hm : aMem (s.pinsDict (s.inst iid).interfacePins) bp.1 = true
    · have hkey0 : bp.1 ∈ ((s.inst iid).interfacePins.map
          fun r => (s.pinRefName r, r)).map Prod.fst := by
        rw [← hpins0]
        exact mem_aKeys_of_aMem hm
      simp only [List.map_map] at hkey0
      obtain ⟨r, hrL, hreq⟩ := List.mem_map.mp hkey0
      have hrl1 : r ∈ (s.inst iid).interfacePins.filter
          (fun x => aMem (s.block (s.inst iid).typeId).interfacePinsRefs
            (s.pinRefName x)) := by
        apply List.mem_filter.mpr
        refine ⟨hrL, ?_⟩
        show aMem _ (s.pinRefName r) = true
        have : s.pinRefName r = bp.1 := hreq
        rw [this]
        exact aMem_of_mem hbp
      refine List.mem_map.mpr ⟨r, ?_, ?_⟩
      · rw [hn1]
        exact List.mem_append.mpr (Or.inl hrl1)
      · rw [hstabname r (hIB r hrL)]
        exact hreq
    · have hm' : aMem (s.pinsDict (s.inst iid).interfacePins) bp.1 = false := by
        simpa using hm
      obtain ⟨r, hrn, hval⟩ := hn3 bp hbp hm'
      refine List.mem_map.mpr ⟨r, ?_, ?_⟩
      · rw [hn1]
        exact List.mem_append.mpr (Or.inr hrn)
      · have hprr : R.2.pinRef r = ⟨(s.pinRef bp.2).pin, none⟩ := by
          simp only [Heap.pinRef]
          rw [hval]
          rfl
        have hag := hAgree bp hbp
        simp only [Heap.pinRefName, Heap.pin] at hag ⊢
        rw [hprr, e1]
        exact hag
  show (let i := (R.2.setInst iid
      ⟨(s.inst iid).name, (s.inst iid).typeId, R.1⟩).inst iid
    let pins := (R.2.setInst iid
      ⟨(s.inst iid).name, (s.inst iid).typeId, R.1⟩).pinsDict i.interfacePins
    let blockPins := ((R.2.setInst iid
      ⟨(s.inst iid).name, (s.inst iid).typeId, R.1⟩).block i.typeId).interfacePinsRefs
    let l1 := updatePinsPhase1 blockPins pins i.interfacePins
    let step := blockPins.foldl (updatePinsPhase2Step pins) (l1, (R.2.setInst iid
      ⟨(s.inst iid).name, (s.inst iid).typeId, R.1⟩))
    step.2.setInst iid { step.2.inst iid with interfacePins := step.1 }) = _
  simp only [hi2, hblock2, hph1, hph2]
  rw [setInst_setInst]


/-- Heap in which instance `i` (heap id 8) of block `B` (id 0) holds TWO
PinRefs that both display the name `b` while `B` has no pins left: pins
`a`, `b` were added to `B`, the instance was created (PinRefs 6, 7), then —
through the public `Block` API — pin `b` was removed (no reconciliation at
this level), pin `a` was renamed to `b` (the shared `Pin` object rename
makes PinRef 6 also display `b`), and the renamed pin was removed too. -/
def staleDupHeap : Heap :=
  let x1 := (mkBlock Heap.empty "B" false []).2
  let x2 := (addInterfacePin x1 0 "a").2
  let x3 := (addInterfacePin x2 0 "b").2
  let x4 := (mkBlock x3 "M" false []).2
  let x5 := (addInstance x4 5 "i" 0).2
  let x6 := (removeInterfacePin x5 0 "b").2
  let x7 := (renameInterfacePin x6 0 "a" "b").2
  (removeInterfacePin x7 0 "b").2

/-- C9 counterexample: on `staleDupHeap` the type block's interface-pin
set is unchanged between the two `update_pins` calls (the first call never
touches the block), both of the instance's PinRefs display the name `b`,
yet the first call leaves PinRef 6 and the second call removes it as well:
the second call is not a no-op and the PinRef set after two calls differs
from the set after one. -/
theorem update_pins_twice_differs :
    (staleDupHeap.inst 8).interfacePins = [6, 7] ∧
    staleDupHeap.pinRefName 6 = "b" ∧
    staleDupHeap.pinRefName 7 = "b" ∧
    ((updatePins staleDupHeap 8).block 0).interfacePins
      = (staleDupHeap.block 0).interfacePins ∧
    ((updatePins staleDupHeap 8).inst 8).interfacePins = [6] ∧
    ((updatePins (updatePins staleDupHeap 8) 8).inst 8).interfacePins = [] ∧
    ([6] : List Nat) ≠ [] := by decide

/-- Heap with block `B` (id 0, one pin `a` after a direct removal of pin
`b`), and instance `i` (id 8) still holding the stale `b` PinRef next to
its `a` PinRef — distinct display names, so the amended statement
applies (and the first `update_pins` really removes the stale PinRef). -/
def staleOneHeap : Heap :=
  let x1 := (mkBlock Heap.empty "B" false []).2
  let x2 := (addInterfacePin x1 0 "a").2
  let x3 := (addInterfacePin x2 0 "b").2
  let x4 := (mkBlock x3 "M" false []).2
  let x5 := (addInstance x4 5 "i" 0).2
  (removeInterfacePin x5 0 "b").2

/-- C9 witness: idempotence evaluated on the concrete stale-pin heap. -/
theorem update_pins_idempotent_witness :
    updatePins (updatePins staleOneHeap 8) 8 = updatePins staleOneHeap 8 :=
  update_pins_idempotent staleOneHeap 8
    (by decide) (by decide) (by decide) (by decide) (by decide)

end Netlist
